import Mathlib

/-!
Shallow embedding of the contract-compliance engine of
`legal_traffic_light_v51.py` (class `AdvancedComparator` and the
risk-zone classifier `determine_risk_zone`), together with theorems
settling the specification claims about it.

Python strings are modelled as `List Char`; Python floats as exact
numbers (`ℚ` for the monetary amounts of the rule engine, `ℝ` for the
similarity scores, whose TF-IDF cosine involves square roots and
logarithms).  The external collaborators `difflib.SequenceMatcher` and
the compiled regular expressions of risk rules enter the model as
explicit function parameters carrying their documented contracts.
-/

namespace LegalTL

/-- Contract text is modelled as a list of characters. -/
abbrev Str := List Char

/-- Coercion from a Lean string literal to the text model. -/
def strL (s : String) : Str := s.data

/-- Python `str.lower` on one character, for the ASCII and Cyrillic
repertoire used by this repository. -/
def pyLowerChar (c : Char) : Char :=
  if 'A' ≤ c ∧ c ≤ 'Z' then Char.ofNat (c.toNat + 32)
  else if 'А' ≤ c ∧ c ≤ 'Я' then Char.ofNat (c.toNat + 32)
  else if c = 'Ё' then 'ё' else c

/-- Python `str.upper` on one character (ASCII and Cyrillic). -/
def pyUpperChar (c : Char) : Char :=
  if 'a' ≤ c ∧ c ≤ 'z' then Char.ofNat (c.toNat - 32)
  else if 'а' ≤ c ∧ c ≤ 'я' then Char.ofNat (c.toNat - 32)
  else if c = 'ё' then 'Ё' else c

/-- Python `str.lower`. -/
def pyLower (s : Str) : Str := s.map pyLowerChar

/-- Python `str.upper`. -/
def pyUpper (s : Str) : Str := s.map pyUpperChar

/-- Python `\s` / `str.isspace` for the ASCII repertoire. -/
def isPySpace (c : Char) : Bool :=
  c = ' ' ∨ c = '\t' ∨ c = '\n' ∨ c = '\r' ∨ c = '\x0b' ∨ c = '\x0c'

/-- Python `str.strip()`: drop leading and trailing whitespace. -/
def pyStrip (s : Str) : Str :=
  ((s.dropWhile isPySpace).reverse.dropWhile isPySpace).reverse

/-- Helper of `splitWs`: accumulates the current word (reversed). -/
def splitWsAux : Str → Str → List Str
  | [], acc => if acc = [] then [] else [acc.reverse]
  | c :: rest, acc =>
    if isPySpace c then
      if acc = [] then splitWsAux rest []
      else acc.reverse :: splitWsAux rest []
    else splitWsAux rest (c :: acc)

/-- Python `str.split()` with no argument: split on whitespace runs,
dropping empty pieces. -/
def splitWs (s : Str) : List Str := splitWsAux s []

/- ===================================================================
   Risk-zone classifier (`determine_risk_zone` and its constants)
   =================================================================== -/

/-- `class RiskZone(Enum)`. -/
inductive RiskZone
  | green
  | yellow
  | red
deriving DecidableEq

/-- `class DocumentForm(Enum)`. -/
inductive DocumentForm
  | typical
  | counterparty
  | free
  | modified_tf
  | self
deriving DecidableEq

/-- `class LegalStatus(Enum)`. -/
inductive LegalStatus
  | not_submitted
  | no_info
  | submitted
  | approved
  | rejected
  | in_progress
deriving DecidableEq

/-- `Thresholds.GREEN_TF_MAX = 100_000`. -/
def Thresholds.GREEN_TF_MAX : ℚ := 100000

/-- `Thresholds.GREEN_NON_TF_MAX = 50_000`. -/
def Thresholds.GREEN_NON_TF_MAX : ℚ := 50000

/-- `Thresholds.YELLOW_MAX = 5_000_000`. -/
def Thresholds.YELLOW_MAX : ℚ := 5000000

/-- `Thresholds.RED_MIN = 5_000_001`. -/
def Thresholds.RED_MIN : ℚ := 5000001

/-- `Thresholds.TENDER_RED = 3_000_000`. -/
def Thresholds.TENDER_RED : ℚ := 3000000

/-- `Thresholds.SINGLE_SUPPLIER_YELLOW = 100_000`. -/
def Thresholds.SINGLE_SUPPLIER_YELLOW : ℚ := 100000

/-- `Thresholds.CONTRACT_CONTROL_YEARS = 3`. -/
def Thresholds.CONTRACT_CONTROL_YEARS : Int := 3

/-- `Deadlines.STANDARD = 5`. -/
def Deadlines.STANDARD : Nat := 5

/-- `Deadlines.EXTENDED = 10`. -/
def Deadlines.EXTENDED : Nat := 10

/-- `Deadlines.URGENT = 1`. -/
def Deadlines.URGENT : Nat := 1

/-- The `RED_ZONE_ALWAYS` list of always-red deal categories. -/
def RED_ZONE_ALWAYS : List String :=
  ["Аренда вагонов", "Лизинг вагонов", "Покупка/продажа вагонов",
   "Аренда локомотивов", "Лизинг локомотивов", "Покупка/продажа локомотивов",
   "Аренда контейнеров", "Лизинг контейнеров", "Покупка/продажа контейнеров",
   "Международные перевозки (ВЭД)", "Расчеты в валюте",
   "Договор на разработку ПО", "Договор на внедрение ПО",
   "Лицензионное соглашение на ПО", "Смарт-контракт",
   "Аренда недвижимости", "Покупка недвижимости",
   "Кредитный договор", "Договор займа", "Договор залога", "Договор поручительства",
   "Договор с ОАО РЖД", "Сервисный (глобальный) договор",
   "Договор, требующий одобрения Совета директоров",
   "Трудовой договор с ТОП-менеджментом",
   "Локальный нормативный акт (ЛНА)", "Положение/Правила/Инструкция",
   "Приказ о коммерческой тайне", "Приказ о дисциплинарном взыскании",
   "Приказ о материальной ответственности"]

/-- The `YELLOW_ZONE_TYPES` list of yellow-zone deal categories. -/
def YELLOW_ZONE_TYPES : List String :=
  ["Договор на регулярные (рамочные) перевозки",
   "Договор на годовые перевозки",
   "Договор ТЭУ (транспортно-экспедиционные услуги)",
   "Перевозка опасного груза", "Перевозка негабаритного груза",
   "Перевозка тяжеловесного груза", "Перевозка дорогостоящего груза",
   "Закупка у единственного поставщика"]

/-- The `RED_DOCUMENTS_ALWAYS` list of always-red document types. -/
def RED_DOCUMENTS_ALWAYS : List String :=
  ["Претензия (входящая)", "Претензия (исходящая)",
   "Исковое заявление", "Судебный приказ",
   "Запрос ФНС", "Запрос ФАС", "Запрос Прокуратуры",
   "Запрос Ространснадзора", "Запрос ГИТ (трудовая инспекция)",
   "Запрос иного госоргана", "Предписание госоргана", "Требование госоргана",
   "ДТП с участием ТС компании", "Утеря груза", "Порча груза",
   "Простой, требующий юридической фиксации"]

/-- `@dataclass AnalysisInput`.  Monetary amounts are exact rationals. -/
structure AnalysisInput where
  amount : ℚ
  document_form : DocumentForm
  document_type : String
  deal_type : String
  legal_status : LegalStatus
  is_single_supplier : Bool
  is_tender : Bool
  tender_amount : ℚ
  contract_years : Int
  changes_essential : Bool
  is_urgent : Bool
  counterparty : String
  contract_number : String
  contract_date : String

/-- `@dataclass ZoneResult`.  The free-text `zone_reason` and the three
flag lists, whose entries render the input's numbers into Russian
prose, are outside the model; no verified claim concerns them. -/
structure ZoneResult where
  zone : RiskZone
  deadline_days : Nat
  requires_legal : Bool
  responsible : String
  recommendations : List String
  warnings : List String
  required_documents : List String
  approval_route : List String

/-- `determine_risk_zone(inp)`: the ordered short-circuiting rule list of
the risk-zone classifier, ported branch by branch from the source. -/
def determine_risk_zone (inp : AnalysisInput) : ZoneResult :=
  if inp.deal_type ≠ "" ∧ inp.deal_type ∈ RED_ZONE_ALWAYS then
    { zone := .red, deadline_days := Deadlines.EXTENDED, requires_legal := true,
      responsible := "Юридический департамент", recommendations := [], warnings := [],
      required_documents := ["Описание задачи", "Проект договора", "ТЗ", "КП",
                             "Карточка контрагента"],
      approval_route := ["ЮД (этап планирования)", "Совместная работа"] }
  else if inp.document_type ≠ "" ∧ inp.document_type ∈ RED_DOCUMENTS_ALWAYS then
    { zone := .red, deadline_days := Deadlines.URGENT, requires_legal := true,
      responsible := "Юридический департамент", recommendations := [],
      warnings := ["⚠️ НЕМЕДЛЕННОЕ привлечение ЮД!"], required_documents := [],
      approval_route := ["ЮД НЕЗАМЕДЛИТЕЛЬНО"] }
  else if inp.is_tender ∧ inp.tender_amount > Thresholds.TENDER_RED then
    { zone := .red, deadline_days := Deadlines.EXTENDED, requires_legal := true,
      responsible := "Юридический департамент", recommendations := [], warnings := [],
      required_documents := [], approval_route := [] }
  else if inp.amount > Thresholds.YELLOW_MAX then
    { zone := .red, deadline_days := Deadlines.EXTENDED, requires_legal := true,
      responsible := "Юридический департамент", recommendations := [], warnings := [],
      required_documents := [],
      approval_route := ["ЮД (планирование)", "Совместная работа"] }
  else
    let yellow_reasons : List String :=
      (if inp.deal_type ≠ "" ∧ inp.deal_type ∈ YELLOW_ZONE_TYPES
       then [inp.deal_type] else []) ++
      (if inp.is_single_supplier ∧ inp.amount > Thresholds.SINGLE_SUPPLIER_YELLOW
       then ["Единственный поставщик > 100К"] else []) ++
      (if inp.contract_years > Thresholds.CONTRACT_CONTROL_YEARS
       then ["Контрольный срок > 3 лет"] else []) ++
      (match inp.document_form with
       | .typical =>
         if inp.amount > Thresholds.GREEN_TF_MAX then ["ТФ > 100К"] else []
       | .counterparty | .free | .self =>
         if inp.amount > Thresholds.GREEN_NON_TF_MAX
         then ["Нетиповая форма > 50К"] else []
       | .modified_tf =>
         if inp.changes_essential then ["Изменение существенных условий"]
         else if inp.amount > Thresholds.GREEN_NON_TF_MAX
         then ["Изменения ТФ > 50К"] else [])
    if yellow_reasons ≠ [] then
      { zone := .yellow, deadline_days := Deadlines.STANDARD, requires_legal := true,
        responsible := "ЮД (экспертиза)", recommendations := [],
        warnings := ["⚠️ ЗАПРЕЩЕНО подписание до визы ЮД!"],
        required_documents := ["Проект договора", "ТЗ", "КП", "Карточка контрагента"],
        approval_route := ["Инициатор → СЭД → ЮД (5 дн.) → Подписание"] }
    else
      { zone := .green, deadline_days := 0, requires_legal := false,
        responsible := "Инициатор",
        recommendations := ["Используйте актуальную ТФ без изменений"],
        warnings := [], required_documents := [],
        approval_route := ["Инициатор → Руководитель → Подписание"] }

/- ===================================================================
   The comparison engine (`class AdvancedComparator`)
   =================================================================== -/

/-- Cyrillic letters (both cases, including ё/Ё). -/
def isCyrChar (c : Char) : Bool :=
  ('а' ≤ c ∧ c ≤ 'я') ∨ ('А' ≤ c ∧ c ≤ 'Я') ∨ c = 'ё' ∨ c = 'Ё'

/-- Latin letters, both cases. -/
def isLatinChar (c : Char) : Bool :=
  ('a' ≤ c ∧ c ≤ 'z') ∨ ('A' ≤ c ∧ c ≤ 'Z')

/-- Python's `\w` word-character class, restricted to the Latin, Cyrillic
and digit repertoire this repository works with. -/
def isPyWordChar (c : Char) : Bool :=
  c.isDigit ∨ isLatinChar c ∨ isCyrChar c ∨ c = '_'

/-- `AdvancedComparator.STOP_WORDS`. -/
def STOP_WORDS : List Str :=
  (["и", "в", "на", "по", "с", "к", "о", "от", "из", "за", "для", "не", "что",
    "как", "это", "все", "или", "при", "до", "без", "его", "её", "их", "быть",
    "который", "также", "между", "после", "перед", "через", "более", "менее",
    "а", "но", "да", "же", "ли", "бы", "то", "ни", "если", "чем"]).map strL

/-- `AdvancedComparator.tokenize`: lowercase, replace every character that
is neither a word character nor whitespace by a space
(`re.sub(r'[^\w\sа-яё]', ' ', text)`), split on whitespace and keep the
tokens longer than two characters that are not stop words. -/
def tokenize (text : Str) : List Str :=
  if text = [] then []
  else
    let cleaned := (pyLower text).map
      (fun c => if isPyWordChar c ∨ isPySpace c then c else ' ')
    (splitWs cleaned).filter (fun t => 2 < t.length ∧ t ∉ STOP_WORDS)

/-- `AdvancedComparator.get_ngrams`: the set of contiguous `n`-token
windows. -/
def get_ngrams (tokens : List Str) (n : Nat) : Finset (List Str) :=
  if tokens.length < n then ∅
  else ((List.range (tokens.length - n + 1)).map
          (fun i => (tokens.drop i).take n)).toFinset

/-- `AdvancedComparator.jaccard_similarity`. -/
noncomputable def jaccard_similarity {α : Type} [DecidableEq α]
    (s1 s2 : Finset α) : ℝ :=
  if s1 = ∅ ∨ s2 = ∅ then 0
  else
    let i := (s1 ∩ s2).card
    let u := (s1 ∪ s2).card
    if 0 < u then (i : ℝ) / (u : ℝ) else 0

/-- `AdvancedComparator.overlap_coefficient`. -/
noncomputable def overlap_coefficient {α : Type} [DecidableEq α]
    (s1 s2 : Finset α) : ℝ :=
  if s1 = ∅ ∨ s2 = ∅ then 0
  else
    let i := (s1 ∩ s2).card
    let m := min s1.card s2.card
    if 0 < m then (i : ℝ) / (m : ℝ) else 0

/-- External collaborator `difflib.SequenceMatcher(None, a, b).ratio()`,
modelled as an abstract function together with its documented contract:
the ratio lies in `[0, 1]` and identical non-empty sequences have ratio
1. -/
structure SeqRatio where
  fn : Str → Str → ℝ
  nonneg : ∀ a b, 0 ≤ fn a b
  le_one : ∀ a b, fn a b ≤ 1
  self_eq_one : ∀ a, a ≠ [] → fn a a = 1

/-- `AdvancedComparator.levenshtein_ratio`: guards empty inputs, then
defers to the sequence-matcher ratio on the lowercased strings. -/
noncomputable def levenshtein_ratio (R : SeqRatio) (s1 s2 : Str) : ℝ :=
  if s1 = [] ∨ s2 = [] then 0 else R.fn (pyLower s1) (pyLower s2)

/-- A Python `dict[str, float]`: a key set plus a value function
(meaningful on the keys; `get` falls back to the default elsewhere). -/
structure RMap where
  keys : Finset Str
  val : Str → ℝ

/-- Python `dict.get(k, d)`. -/
noncomputable def RMap.get (m : RMap) (k : Str) (d : ℝ) : ℝ :=
  if k ∈ m.keys then m.val k else d

/-- `AdvancedComparator.compute_tf`: term frequency
`count / len(tokens)`. -/
noncomputable def compute_tf (tokens : List Str) : RMap :=
  if tokens = [] then ⟨∅, fun _ => 0⟩
  else ⟨tokens.toFinset, fun t => (tokens.count t : ℝ) / (tokens.length : ℝ)⟩

/-- `AdvancedComparator.compute_idf`:
`ln((n_docs + 1) / (df + 1)) + 1` over the tokens of the corpus, where
`df t` counts the documents containing `t`. -/
noncomputable def compute_idf (docs : List (List Str)) : RMap :=
  if docs = [] then ⟨∅, fun _ => 0⟩
  else
    ⟨(docs.map List.toFinset).foldr (· ∪ ·) ∅,
     fun t =>
       Real.log (((docs.length : ℝ) + 1) /
         (((docs.filter (fun d => t ∈ d)).length : ℝ) + 1)) + 1⟩

/-- `AdvancedComparator.cosine_similarity` of two weighted vectors,
guarding empty vectors and zero norms. -/
noncomputable def cosine_similarity (v1 v2 : RMap) : ℝ :=
  if v1.keys = ∅ ∨ v2.keys = ∅ then 0
  else
    let dot := ∑ k ∈ v1.keys ∪ v2.keys, (v1.get k 0) * (v2.get k 0)
    let n1 := Real.sqrt (∑ k ∈ v1.keys, (v1.val k) ^ 2)
    let n2 := Real.sqrt (∑ k ∈ v2.keys, (v2.val k) ^ 2)
    if 0 < n1 ∧ 0 < n2 then dot / (n1 * n2) else 0

/-- Python's substring test `pat in text` on strings: some contiguous
slice of `text` equals `pat` (true for the empty `pat`). -/
def isSubstr (pat text : Str) : Bool :=
  (List.range (text.length + 1)).any (fun i => pat.isPrefixOf (text.drop i))

/-- `AdvancedComparator.keyword_match_score`: the fraction of keywords
appearing (case-insensitively) as substrings of the text, with the
matched keywords. -/
noncomputable def keyword_match_score (text : Str) (keywords : List Str) :
    ℝ × List Str :=
  if keywords = [] then (0, [])
  else
    let text_lower := pyLower text
    let matched := keywords.filter (fun kw => isSubstr (pyLower kw) text_lower)
    ((matched.length : ℝ) / (keywords.length : ℝ), matched)

/-- The two TF-IDF vectors `compare_section` builds over the 2-document
corpus `[contract_tokens, template_tokens]`:
`{k: tf.get(k, 0) * idf.get(k, 1) for k in set}` on each side. -/
noncomputable def tfidfPair (contract_tokens template_tokens : List Str) :
    RMap × RMap :=
  let idf := compute_idf [contract_tokens, template_tokens]
  (⟨contract_tokens.toFinset,
    fun k => (compute_tf contract_tokens).get k 0 * idf.get k 1⟩,
   ⟨template_tokens.toFinset,
    fun k => (compute_tf template_tokens).get k 0 * idf.get k 1⟩)

/-- The result dict of `AdvancedComparator.compare_section`.  The Python
`similarity_scores` sub-dict is flattened into one field per metric; on
the early (`missing`) return, where Python leaves the sub-dict empty,
every metric field is 0.  The fields `matched_section_name` and
`name_similarity` are the keys `find_best_matching_section` adds to the
winning comparison. -/
structure SectionComparison where
  found : Bool
  jaccard_words : ℝ
  jaccard_bigrams : ℝ
  overlap : ℝ
  levenshtein : ℝ
  cosine_tfidf : ℝ
  combined_score : ℝ
  keyword_score : ℝ
  matched_keywords : List Str
  status : String
  matched_section_name : Option Str
  name_similarity : ℝ

/-- The initial result dict of `compare_section`, returned unchanged when
the contract section is empty. -/
def emptyComparison : SectionComparison :=
  { found := false, jaccard_words := 0, jaccard_bigrams := 0, overlap := 0,
    levenshtein := 0, cosine_tfidf := 0, combined_score := 0, keyword_score := 0,
    matched_keywords := [], status := "missing", matched_section_name := none,
    name_similarity := 0 }

/-- `AdvancedComparator.compare_section`, ported line by line. -/
noncomputable def compare_section (R : SeqRatio)
    (contract_section template_section : Str) (keywords : List Str) :
    SectionComparison :=
  if contract_section = [] then emptyComparison
  else
    let contract_tokens := tokenize contract_section
    let template_tokens := tokenize template_section
    let contract_set := contract_tokens.toFinset
    let template_set := template_tokens.toFinset
    let jaccard := jaccard_similarity contract_set template_set
    let jaccard_bigrams :=
      jaccard_similarity (get_ngrams contract_tokens 2) (get_ngrams template_tokens 2)
    let overlap := overlap_coefficient contract_set template_set
    let levenshtein :=
      levenshtein_ratio R (contract_section.take 1000) (template_section.take 1000)
    let tfidf := tfidfPair contract_tokens template_tokens
    let cosine := cosine_similarity tfidf.1 tfidf.2
    let kw := keyword_match_score contract_section keywords
    let combined := jaccard * 0.15 + jaccard_bigrams * 0.20 + overlap * 0.15 +
                    levenshtein * 0.20 + cosine * 0.15 + kw.1 * 0.15
    { found := true, jaccard_words := jaccard, jaccard_bigrams := jaccard_bigrams,
      overlap := overlap, levenshtein := levenshtein, cosine_tfidf := cosine,
      combined_score := combined, keyword_score := kw.1, matched_keywords := kw.2,
      status := if 0.7 ≤ combined then "match"
                else if 0.4 ≤ combined then "partial" else "deviation",
      matched_section_name := none, name_similarity := 0 }

/-- `re.sub(r'^\d+\.\s*', '', s)`: strip one leading "number." group with
its following whitespace, when present. -/
def stripLeadingNum (s : Str) : Str :=
  let ds := s.takeWhile Char.isDigit
  if ds ≠ [] ∧ (s.drop ds.length).head? = some '.'
  then (s.drop (ds.length + 1)).dropWhile isPySpace
  else s

/-- The loop of `AdvancedComparator.find_best_matching_section`: walk the
contract sections in document order keeping the first strict maximiser of
`combined_score * 0.7 + name_similarity * 0.3` above the running best
(initially 0). -/
noncomputable def bestLoop (R : SeqRatio) (normName tmpl : Str) (kws : List Str) :
    List (Str × Str) → ℝ → Option Str × Option SectionComparison →
    Option Str × Option SectionComparison
  | [], _, best => best
  | (nm, body) :: rest, best_score, best =>
    let contract_norm := pyLower (stripLeadingNum nm)
    let name_sim := levenshtein_ratio R normName contract_norm
    let comparison := compare_section R body tmpl kws
    let total := comparison.combined_score * 0.7 + name_sim * 0.3
    if best_score < total then
      bestLoop R normName tmpl kws rest total
        (some nm, some { comparison with matched_section_name := some nm,
                                         name_similarity := name_sim })
    else bestLoop R normName tmpl kws rest best_score best

/-- `AdvancedComparator.find_best_matching_section`. -/
noncomputable def find_best_matching_section (R : SeqRatio) (section_name : Str)
    (contract_sections : List (Str × Str)) (template_text : Str)
    (keywords : List Str) : Option Str × Option SectionComparison :=
  bestLoop R (pyLower (stripLeadingNum section_name)) template_text keywords
    contract_sections 0 (none, none)

/-- A risk rule (`{"pattern": ..., "risk": ..., "issue": ...}`).  The
rule's compiled regular expression enters the model as its search
function: `search t` is the `(start, end)` span of the first (leftmost)
match of the pattern in `t`, or `none` — the semantics of `re.search`.
`risk` is `none` when the rule's dict has no "risk" key
(`p.get("risk", "yellow")`). -/
structure RiskRule where
  search : Str → Option (Nat × Nat)
  risk : Option String
  issue : String

/-- A found risk (`{"issue", "risk_level", "context", "position"}`). -/
structure RiskFinding where
  issue : String
  risk_level : String
  context : Str
  position : Nat
deriving DecidableEq

/-- The finding built for a rule whose pattern matched at span `m`, with
up to 100 characters of context on each side (`max(0, start - 100)` is
truncated subtraction on `ℕ`). -/
def mkFinding (text_lower : Str) (p : RiskRule) (m : Nat × Nat) : RiskFinding :=
  { issue := p.issue, risk_level := p.risk.getD "yellow",
    context := strL "..." ++
      ((text_lower.take (min text_lower.length (m.2 + 100))).drop (m.1 - 100)) ++
      strL "...",
    position := m.1 }

/-- `AdvancedComparator.check_risk_patterns`: lowercase the text, try
each rule once in order and collect one finding per matching rule. -/
def check_risk_patterns (text : Str) (patterns : List RiskRule) :
    List RiskFinding :=
  let text_lower := pyLower text
  patterns.filterMap (fun p => (p.search text_lower).map (mkFinding text_lower p))

/-- `re.search` for a literal pattern with no metacharacters: the span of
the leftmost occurrence of `pat` in `text`. -/
def litSearch (pat : Str) (text : Str) : Option (Nat × Nat) :=
  ((List.range (text.length + 1)).find?
      (fun i => pat.isPrefixOf (text.drop i))).map
    (fun i => (i, i + pat.length))

/-- `re.match` of the first heading pattern
`(\d+)\.\s*([А-ЯЁA-Z][А-ЯЁA-Z\s\-]+?)(?:\n|$)` (IGNORECASE) against one
line: digits, a dot, optional whitespace, then at least two characters of
letters, whitespace and hyphens starting with a letter and reaching the
end of the line.  Returns the two groups. -/
def matchNumberedHeading (s : Str) : Option (Str × Str) :=
  let ds := s.takeWhile Char.isDigit
  if ds = [] then none
  else
    match s.drop ds.length with
    | '.' :: rest =>
      match rest.dropWhile isPySpace with
      | [] => none
      | c :: cs =>
        if (isLatinChar c ∨ isCyrChar c) ∧ cs ≠ [] ∧
            cs.all (fun d => isLatinChar d ∨ isCyrChar d ∨ isPySpace d ∨ d = '-')
        then some (ds, c :: cs) else none
    | _ => none

/-- `re.match` of `(KW\s+\d+)[.\s]+(.+?)(?:\n|$)` (IGNORECASE) against
one line, for the keyword heading patterns `РАЗДЕЛ` and `Статья`: the
keyword, whitespace, digits, then at least one dot-or-space, then a
non-empty remainder.  The dot-or-space run is consumed greedily, backing
off one character when it would swallow the whole remainder. -/
def matchKeywordHeading (kw : Str) (s : Str) : Option (Str × Str) :=
  if pyLower (s.take kw.length) = pyLower kw then
    let rest := s.drop kw.length
    let sp := rest.takeWhile isPySpace
    if sp = [] then none
    else
      let afterSp := rest.drop sp.length
      let ds := afterSp.takeWhile Char.isDigit
      if ds = [] then none
      else
        let g1 := s.take (kw.length + sp.length + ds.length)
        let tl := afterSp.drop ds.length
        let junk := tl.takeWhile (fun c => c = '.' ∨ isPySpace c)
        if junk = [] then none
        else if junk.length < tl.length then some (g1, tl.drop junk.length)
        else if 2 ≤ junk.length then some (g1, tl.drop (junk.length - 1))
        else none
  else none

/-- One pass of the three heading patterns of
`AdvancedComparator.extract_sections` over a stripped line; on a match,
the new section key `f"{g1}. {g2}".strip().upper()`. -/
def matchHeading (s : Str) : Option Str :=
  match matchNumberedHeading s with
  | some (g1, g2) => some (pyUpper (pyStrip (g1 ++ strL ". " ++ g2)))
  | none =>
    match matchKeywordHeading (strL "РАЗДЕЛ") s with
    | some (g1, g2) => some (pyUpper (pyStrip (g1 ++ strL ". " ++ g2)))
    | none =>
      match matchKeywordHeading (strL "Статья") s with
      | some (g1, g2) => some (pyUpper (pyStrip (g1 ++ strL ". " ++ g2)))
      | none => none

/-- Python `dict` assignment `d[k] = v` for an insertion-ordered dict:
replace in place when the key exists, append otherwise. -/
def dictInsert {β : Type} (k : Str) (v : β) :
    List (Str × β) → List (Str × β)
  | [] => [(k, v)]
  | (k', v') :: rest =>
    if k' = k then (k, v) :: rest else (k', v') :: dictInsert k v rest

/-- Python `dict.get` (first — and by construction only — binding). -/
def lookupDict {β : Type} (k : Str) : List (Str × β) → Option β
  | [] => none
  | (k', v) :: rest => if k' = k then some v else lookupDict k rest

/-- The line loop of `extract_sections`.  The current section's pending
lines are accumulated in reverse. -/
def extractLoop : List Str → List (Str × Str) → Str → List Str →
    List (Str × Str)
  | [], sections, cur, content =>
    if content ≠ []
    then dictInsert cur (pyStrip (List.intercalate (strL "\n") content.reverse)) sections
    else sections
  | line :: rest, sections, cur, content =>
    match matchHeading (pyStrip line) with
    | some key =>
      let sections2 :=
        if content ≠ []
        then dictInsert cur (pyStrip (List.intercalate (strL "\n") content.reverse)) sections
        else sections
      extractLoop rest sections2 key [line]
    | none => extractLoop rest sections cur (line :: content)

/-- `AdvancedComparator.extract_sections`: split the text into lines,
collect heading-delimited sections, everything before the first heading
(or the whole text absent any) under the synthetic `ПРЕАМБУЛА` key. -/
def extract_sections (text : Str) : List (Str × Str) :=
  extractLoop (text.splitOn '\n') [] (strL "ПРЕАМБУЛА") []

/-- One section of a typical form
(`{"required", "template", "keywords", "risk_patterns"}`). -/
structure SectionTemplate where
  required : Bool
  template : Str
  keywords : List Str
  risk_patterns : List RiskRule

/-- A typical form: metadata, the ordered section dict and the global
risk rules. -/
structure TypicalForm where
  name : String
  code : String
  version : String
  sections : List (Str × SectionTemplate)
  global_risk_patterns : List RiskRule

/-- One entry of `result["sections_analysis"]`.  When Python stores
`None`-or-default, the model stores `emptyComparison`. -/
structure SectionAnalysis where
  section_name : Str
  required : Bool
  matched_in_contract : Option Str
  comparison : SectionComparison
  risks : List RiskFinding

/-- The result dict of `AdvancedComparator.full_comparison`. -/
structure ComparisonResult where
  form_name : String
  form_code : String
  form_version : String
  sections_analysis : List SectionAnalysis
  missing_sections : List Str
  found_sections : List Str
  partial_sections : List Str
  deviation_sections : List Str
  risks : List RiskFinding
  global_risks : List RiskFinding
  compliance_score : ℝ
  section_scores : List (Str × ℝ)
  recommendations : List Str
  summary : String

/-- The accumulator of the section loop of `full_comparison`. -/
structure CompAcc where
  analyses : List SectionAnalysis
  missing_sections : List Str
  found_sections : List Str
  partial_sections : List Str
  deviation_sections : List Str
  risks : List RiskFinding
  recommendations : List Str
  section_scores : List (Str × ℝ)
  total_score : ℝ
  total_weight : ℝ

/-- The empty accumulator. -/
def initAcc : CompAcc :=
  { analyses := [], missing_sections := [], found_sections := [],
    partial_sections := [], deviation_sections := [], risks := [],
    recommendations := [], section_scores := [], total_score := 0,
    total_weight := 0 }

/-- The recommendation `f"Раздел '{name}' существенно отличается от ТФ"`. -/
def devMsg (name : Str) : Str :=
  strL "Раздел '" ++ name ++ strL "' существенно отличается от ТФ"

/-- The recommendation
`f"КРИТИЧНО: Отсутствует обязательный раздел '{name}'"`. -/
def critMsg (name : Str) : Str :=
  strL "КРИТИЧНО: Отсутствует обязательный раздел '" ++ name ++ strL "'"

/-- The guarded section-level risk scan of the loop
(`if matched_name and contract_sections.get(matched_name): ...`):
Python truthiness demands a non-`None`, non-empty matched name whose
looked-up body is present and non-empty. -/
def sectionRisks (contract_sections : List (Str × Str)) (rp : List RiskRule) :
    Option Str → List RiskFinding
  | some nm =>
    if nm ≠ [] then
      match lookupDict nm contract_sections with
      | some body => if body ≠ [] then check_risk_patterns body rp else []
      | none => []
    else []
  | none => []

/-- The body of the per-template-section loop of `full_comparison`,
ported branch by branch. -/
noncomputable def sectionStep (R : SeqRatio)
    (contract_sections : List (Str × Str)) (acc : CompAcc)
    (entry : Str × SectionTemplate) : CompAcc :=
  let section_name := entry.1
  let sd := entry.2
  let weight : ℝ := if sd.required then 2.0 else 1.0
  let fb := find_best_matching_section R section_name contract_sections
              sd.template sd.keywords
  let matched_name := fb.1
  let comparison := fb.2
  let section_risks := sectionRisks contract_sections sd.risk_patterns matched_name
  let sa : SectionAnalysis :=
    { section_name := section_name, required := sd.required,
      matched_in_contract := matched_name,
      comparison := comparison.getD emptyComparison,
      risks := section_risks }
  let acc1 :=
    { acc with total_weight := acc.total_weight + weight,
               risks := acc.risks ++ section_risks }
  let acc2 :=
    match comparison with
    | some cmp =>
      if cmp.found then
        if cmp.status = "match" then
          { acc1 with found_sections := acc1.found_sections ++ [section_name],
                      total_score := acc1.total_score + weight }
        else if cmp.status = "partial" then
          { acc1 with partial_sections := acc1.partial_sections ++ [section_name],
                      total_score := acc1.total_score + weight * 0.6 }
        else
          { acc1 with deviation_sections := acc1.deviation_sections ++ [section_name],
                      total_score := acc1.total_score + weight * 0.3,
                      recommendations := acc1.recommendations ++ [devMsg section_name] }
      else if sd.required then
        { acc1 with missing_sections := acc1.missing_sections ++ [section_name],
                    recommendations := acc1.recommendations ++ [critMsg section_name] }
      else
        { acc1 with missing_sections := acc1.missing_sections ++ [section_name] }
    | none =>
      if sd.required then
        { acc1 with missing_sections := acc1.missing_sections ++ [section_name],
                    recommendations := acc1.recommendations ++ [critMsg section_name] }
      else
        { acc1 with missing_sections := acc1.missing_sections ++ [section_name] }
  let acc3 := { acc2 with analyses := acc2.analyses ++ [sa] }
  match comparison with
  | some cmp =>
    { acc3 with section_scores :=
        dictInsert section_name cmp.combined_score acc3.section_scores }
  | none => acc3

/-- `AdvancedComparator.full_comparison`: run the section loop, scan the
global risk rules, and aggregate the compliance score with the risk
penalty. -/
noncomputable def full_comparison (R : SeqRatio) (contract_text : Str)
    (form : TypicalForm) : ComparisonResult :=
  let contract_sections := extract_sections contract_text
  let acc := form.sections.foldl (sectionStep R contract_sections) initAcc
  let global_risks := check_risk_patterns contract_text form.global_risk_patterns
  let all_risks := acc.risks ++ global_risks
  let red_risks := (all_risks.filter (fun r => r.risk_level = "red")).length
  let yellow_risks := (all_risks.filter (fun r => r.risk_level = "yellow")).length
  let risk_penalty : ℝ := (red_risks : ℝ) * 0.15 + (yellow_risks : ℝ) * 0.05
  let score : ℝ :=
    if 0 < acc.total_weight then
      max 0 ((acc.total_score / acc.total_weight) * 100 - risk_penalty * 100)
    else 0
  { form_name := form.name, form_code := form.code, form_version := form.version,
    sections_analysis := acc.analyses,
    missing_sections := acc.missing_sections,
    found_sections := acc.found_sections,
    partial_sections := acc.partial_sections,
    deviation_sections := acc.deviation_sections,
    risks := all_risks, global_risks := global_risks,
    compliance_score := score, section_scores := acc.section_scores,
    recommendations := acc.recommendations,
    summary :=
      if 80 ≤ score then "Высокое соответствие типовой форме."
      else if 50 ≤ score then "Частичное соответствие. Требуется проверка."
      else "Существенные отклонения. Требуется экспертиза." }

/- ===================================================================
   Derived definitions: spec-side formulas and concrete instances
   =================================================================== -/

/-- A benign default `AnalysisInput` used by concrete instances. -/
def baseInput : AnalysisInput :=
  { amount := 0, document_form := .typical, document_type := "", deal_type := "",
    legal_status := .not_submitted, is_single_supplier := false, is_tender := false,
    tender_amount := 0, contract_years := 0, changes_essential := false,
    is_urgent := false, counterparty := "", contract_number := "", contract_date := "" }

/-- The comparison that `find_best_matching_section` attaches when the
contract section `(nm, body)` wins: the plain section comparison plus the
two extra keys. -/
noncomputable def matchedCmp (R : SeqRatio) (normName tmpl : Str)
    (kws : List Str) (nm body : Str) : SectionComparison :=
  { compare_section R body tmpl kws with
    matched_section_name := some nm,
    name_similarity := levenshtein_ratio R normName (pyLower (stripLeadingNum nm)) }

/-- The per-item score of the matcher's loop. -/
noncomputable def itemTotal (R : SeqRatio) (normName tmpl : Str) (kws : List Str)
    (it : Str × Str) : ℝ :=
  (compare_section R it.2 tmpl kws).combined_score * 0.7 +
    (levenshtein_ratio R normName (pyLower (stripLeadingNum it.1))) * 0.3

/-- The weighted sum of the six similarity metrics, written as the spec
states it: 0.15·jaccard + 0.20·bigram-jaccard + 0.15·overlap +
0.20·edit-ratio + 0.15·TF-IDF-cosine + 0.15·keyword-coverage. -/
noncomputable def specCombined (R : SeqRatio) (c t : Str) (kws : List Str) : ℝ :=
  jaccard_similarity (tokenize c).toFinset (tokenize t).toFinset * 0.15 +
  jaccard_similarity (get_ngrams (tokenize c) 2) (get_ngrams (tokenize t) 2) * 0.20 +
  overlap_coefficient (tokenize c).toFinset (tokenize t).toFinset * 0.15 +
  levenshtein_ratio R (c.take 1000) (t.take 1000) * 0.20 +
  cosine_similarity (tfidfPair (tokenize c) (tokenize t)).1
    (tfidfPair (tokenize c) (tokenize t)).2 * 0.15 +
  (keyword_match_score c kws).1 * 0.15

/-- A concrete sequence-matcher model satisfying the `SeqRatio`
contract, used to instantiate counterexamples and witnesses. -/
noncomputable def eqRatio : SeqRatio where
  fn := fun a b => if a = b ∧ a ≠ [] then 1 else 0
  nonneg := by intro a b; dsimp only; split_ifs <;> norm_num
  le_one := by intro a b; dsimp only; split_ifs <;> norm_num
  self_eq_one := by intro a ha; simp [ha]

/-- Spec-side weight: 2.0 for a required section, 1.0 otherwise. -/
noncomputable def specWeight (sa : SectionAnalysis) : ℝ :=
  if sa.required then 2 else 1

/-- Spec-side contribution: weight times 1 / 0.6 / 0.3 / 0 according to
the recorded status Match / Partial / Deviation / Missing. -/
noncomputable def specContribution (sa : SectionAnalysis) : ℝ :=
  specWeight sa *
    (if sa.comparison.status = "match" then 1
     else if sa.comparison.status = "partial" then 0.6
     else if sa.comparison.status = "deviation" then 0.3 else 0)

/-- Total weight of the spec's formula. -/
noncomputable def sumW (l : List SectionAnalysis) : ℝ := (l.map specWeight).sum

/-- Total contribution of the spec's formula. -/
noncomputable def sumC (l : List SectionAnalysis) : ℝ := (l.map specContribution).sum

/-- The total weight of a template-section list. -/
noncomputable def weightSum (l : List (Str × SectionTemplate)) : ℝ :=
  (l.map (fun e => if e.2.required then (2 : ℝ) else 1)).sum

/-- The demonstration template section: required, canonical text of two
tokens, no keywords, no risk rules. -/
def demoSection : SectionTemplate :=
  { required := true, template := strL "гарантийный срок", keywords := [],
    risk_patterns := [] }

/-- The demonstration typical form with the single section above. -/
def demoForm : TypicalForm :=
  { name := "демо", code := "", version := "",
    sections := [(strL "1. ГАРАНТИИ", demoSection)], global_risk_patterns := [] }

/-- The demonstration contract text: exactly the canonical text, so the
whole document is one `ПРЕАМБУЛА` section equal to the template. -/
def demoText : Str := strL "гарантийный срок"

/-- A required template section whose canonical text is a single token,
with no keywords and no risk rules. -/
def demoSection1 : SectionTemplate :=
  { required := true, template := strL "гарантия", keywords := [],
    risk_patterns := [] }

/-- A typical form with only the single-token section above. -/
def demoForm1 : TypicalForm :=
  { name := "демо1", code := "", version := "",
    sections := [(strL "1. ГАРАНТИИ", demoSection1)], global_risk_patterns := [] }

/-- The number of occurrences of `pat` in `text` (starting positions at
which `pat` is a prefix of the rest of the text). -/
def countOccur (pat text : Str) : Nat :=
  ((List.range (text.length + 1)).filter (fun i => pat.isPrefixOf (text.drop i))).length

/- ===================================================================
   Claims C3 and C10: the rule engine
   =================================================================== -/

/-- C3: with no higher-priority red trigger, the red-zone amount rule of
`determine_risk_zone` is a strict `> 5,000,000` test: at amount
5,000,000 the zone is not red, at 5,000,001 it is red with the extended
deadline. -/
theorem C3_amount_rule_strict (inp : AnalysisInput)
    (h1 : ¬(inp.deal_type ≠ "" ∧ inp.deal_type ∈ RED_ZONE_ALWAYS))
    (h2 : ¬(inp.document_type ≠ "" ∧ inp.document_type ∈ RED_DOCUMENTS_ALWAYS))
    (h3 : ¬(inp.is_tender ∧ inp.tender_amount > Thresholds.TENDER_RED)) :
    (inp.amount = 5000000 → (determine_risk_zone inp).zone ≠ RiskZone.red) ∧
    (inp.amount = 5000001 →
      (determine_risk_zone inp).zone = RiskZone.red ∧
      (determine_risk_zone inp).deadline_days = Deadlines.EXTENDED) := by
  unfold determine_risk_zone
  rw [if_neg h1, if_neg h2, if_neg h3]
  constructor
  · intro h5
    have hlt : ¬(inp.amount > Thresholds.YELLOW_MAX) := by
      rw [h5]; unfold Thresholds.YELLOW_MAX; norm_num
    rw [if_neg hlt]
    cases hf : inp.document_form <;> simp only [hf] <;> split_ifs <;> decide
  · intro h5
    have hgt : inp.amount > Thresholds.YELLOW_MAX := by
      rw [h5]; unfold Thresholds.YELLOW_MAX; norm_num
    rw [if_pos hgt]
    exact ⟨rfl, rfl⟩

/-- Witness for C3: concrete inputs at both sides of the 5,000,000
boundary, the hypotheses discharged by computation. -/
theorem C3_amount_rule_strict_witness :
    ((determine_risk_zone { baseInput with amount := 5000000 }).zone ≠ RiskZone.red) ∧
    ((determine_risk_zone { baseInput with amount := 5000001 }).zone = RiskZone.red ∧
     (determine_risk_zone { baseInput with amount := 5000001 }).deadline_days =
       Deadlines.EXTENDED) :=
  ⟨(C3_amount_rule_strict { baseInput with amount := 5000000 }
      (by decide) (by decide) (by decide)).1 rfl,
   (C3_amount_rule_strict { baseInput with amount := 5000001 }
      (by decide) (by decide) (by decide)).2 rfl⟩

/-- `requires_legal = false ↔ zone = green` passes through a branch when
both arms satisfy it. -/
theorem zone_ite_pres (c : Prop) [Decidable c] (A B : ZoneResult)
    (hA : A.requires_legal = false ↔ A.zone = RiskZone.green)
    (hB : B.requires_legal = false ↔ B.zone = RiskZone.green) :
    ((ite c A B).requires_legal = false ↔ (ite c A B).zone = RiskZone.green) := by
  by_cases h : c
  · rw [if_pos h]; exact hA
  · rw [if_neg h]; exact hB

/-- C10: for every `AnalysisInput`, the `ZoneResult` of
`determine_risk_zone` has `requires_legal = False` exactly on the green
zone: every yellow or red outcome requires legal review and the green
outcome does not. -/
theorem C10_requires_legal_iff_not_green (inp : AnalysisInput) :
    ((determine_risk_zone inp).requires_legal = false ↔
      (determine_risk_zone inp).zone = RiskZone.green) := by
  unfold determine_risk_zone
  exact zone_ite_pres _ _ _ (by decide)
    (zone_ite_pres _ _ _ (by decide)
      (zone_ite_pres _ _ _ (by decide)
        (zone_ite_pres _ _ _ (by decide)
          (zone_ite_pres _ _ _ (by decide) (by decide)))))

/-- Witness for C10 (its statement has no proposition hypothesis, but a
closed instance is given anyway): the all-default input is green and
needs no legal review. -/
theorem C10_requires_legal_iff_not_green_witness :
    ((determine_risk_zone baseInput).requires_legal = false ↔
      (determine_risk_zone baseInput).zone = RiskZone.green) :=
  C10_requires_legal_iff_not_green baseInput

/- ===================================================================
   Lemmas about `compare_section` and the matcher
   =================================================================== -/

theorem compare_section_empty (R : SeqRatio) (t : Str) (k : List Str) :
    compare_section R [] t k = emptyComparison := by
  simp [compare_section]

theorem compare_section_found_iff (R : SeqRatio) (b t : Str) (k : List Str) :
    (compare_section R b t k).found = true ↔ b ≠ [] := by
  by_cases h : b = [] <;> simp [compare_section, h, emptyComparison]

theorem compare_section_status_cases (R : SeqRatio) (b t : Str) (k : List Str)
    (h : b ≠ []) :
    (compare_section R b t k).status = "match" ∨
    (compare_section R b t k).status = "partial" ∨
    (compare_section R b t k).status = "deviation" := by
  simp only [compare_section, if_neg h]
  split_ifs <;> simp

theorem matchedCmp_found (R : SeqRatio) (nn t : Str) (k : List Str) (nm b : Str) :
    (matchedCmp R nn t k nm b).found = (compare_section R b t k).found := rfl

theorem matchedCmp_status (R : SeqRatio) (nn t : Str) (k : List Str) (nm b : Str) :
    (matchedCmp R nn t k nm b).status = (compare_section R b t k).status := rfl

theorem bestLoop_cons (R : SeqRatio) (nn t : Str) (k : List Str)
    (nm body : Str) (rest : List (Str × Str)) (bs : ℝ)
    (best : Option Str × Option SectionComparison) :
    bestLoop R nn t k ((nm, body) :: rest) bs best =
      (if bs < itemTotal R nn t k (nm, body) then
        bestLoop R nn t k rest (itemTotal R nn t k (nm, body))
          (some nm, some (matchedCmp R nn t k nm body))
      else bestLoop R nn t k rest bs best) := rfl

/-- Everything the matcher's loop can return satisfies any predicate
that holds of the starting accumulator and of every item's winning
pair. -/
theorem bestLoop_pair (R : SeqRatio) (nn t : Str) (k : List Str)
    (C : Option Str × Option SectionComparison → Prop) :
    ∀ (items : List (Str × Str)) (bs : ℝ)
      (best : Option Str × Option SectionComparison),
      C best →
      (∀ nm body, (nm, body) ∈ items →
        C (some nm, some (matchedCmp R nn t k nm body))) →
      C (bestLoop R nn t k items bs best) := by
  intro items
  induction items with
  | nil => intro bs best hb _; exact hb
  | cons hd rest ih =>
    intro bs best hb hmem
    obtain ⟨nm, body⟩ := hd
    rw [bestLoop_cons]
    split_ifs with h
    · exact ih _ _ (hmem nm body (by simp)) (fun n b hm => hmem n b (by simp [hm]))
    · exact ih _ _ hb (fun n b hm => hmem n b (by simp [hm]))

/-- What `find_best_matching_section` can return: nothing, or the pair
built from one of the contract sections. -/
theorem find_best_spec (R : SeqRatio) (sn : Str) (cs : List (Str × Str))
    (tmpl : Str) (kws : List Str) :
    find_best_matching_section R sn cs tmpl kws = (none, none) ∨
    ∃ nm body, (nm, body) ∈ cs ∧
      find_best_matching_section R sn cs tmpl kws =
        (some nm, some (matchedCmp R (pyLower (stripLeadingNum sn)) tmpl kws nm body)) := by
  unfold find_best_matching_section
  exact bestLoop_pair R _ tmpl kws
    (fun p => p = (none, none) ∨
      ∃ nm body, (nm, body) ∈ cs ∧
        p = (some nm, some (matchedCmp R (pyLower (stripLeadingNum sn)) tmpl kws nm body)))
    cs 0 (none, none) (Or.inl rfl)
    (fun nm body hm => Or.inr ⟨nm, body, hm, rfl⟩)

/- ===================================================================
   Bounds of the individual similarity metrics
   =================================================================== -/

theorem jaccard_similarity_bounds {α : Type} [DecidableEq α] (s1 s2 : Finset α) :
    0 ≤ jaccard_similarity s1 s2 ∧ jaccard_similarity s1 s2 ≤ 1 := by
  unfold jaccard_similarity
  dsimp only
  split_ifs with h1 h2
  · norm_num
  · have hc : (s1 ∩ s2).card ≤ (s1 ∪ s2).card :=
      Finset.card_le_card (Finset.inter_subset_union)
    constructor
    · positivity
    · rw [div_le_one (by exact_mod_cast h2)]
      exact_mod_cast hc
  · norm_num

theorem overlap_coefficient_bounds {α : Type} [DecidableEq α] (s1 s2 : Finset α) :
    0 ≤ overlap_coefficient s1 s2 ∧ overlap_coefficient s1 s2 ≤ 1 := by
  unfold overlap_coefficient
  dsimp only
  split_ifs with h1 h2
  · norm_num
  · have hc : (s1 ∩ s2).card ≤ min s1.card s2.card :=
      le_min (Finset.card_le_card Finset.inter_subset_left)
        (Finset.card_le_card Finset.inter_subset_right)
    constructor
    · positivity
    · rw [div_le_one (by exact_mod_cast h2)]
      exact_mod_cast hc
  · norm_num

theorem levenshtein_ratio_bounds (R : SeqRatio) (s1 s2 : Str) :
    0 ≤ levenshtein_ratio R s1 s2 ∧ levenshtein_ratio R s1 s2 ≤ 1 := by
  unfold levenshtein_ratio
  split_ifs with h
  · norm_num
  · exact ⟨R.nonneg _ _, R.le_one _ _⟩

theorem keyword_match_score_bounds (text : Str) (kws : List Str) :
    0 ≤ (keyword_match_score text kws).1 ∧ (keyword_match_score text kws).1 ≤ 1 := by
  unfold keyword_match_score
  split_ifs with h
  · norm_num
  · have hlen : (kws.filter (fun kw => isSubstr (pyLower kw) (pyLower text))).length ≤
        kws.length := List.length_filter_le _ _
    have hpos : 0 < (kws.length : ℝ) := by
      have : kws.length ≠ 0 := fun h0 => h (List.length_eq_zero.1 h0)
      exact_mod_cast Nat.pos_of_ne_zero this
    constructor
    · positivity
    · rw [div_le_one hpos]
      exact_mod_cast hlen

theorem cosine_similarity_bounds (v1 v2 : RMap)
    (h1 : ∀ k, 0 ≤ v1.val k) (h2 : ∀ k, 0 ≤ v2.val k) :
    0 ≤ cosine_similarity v1 v2 ∧ cosine_similarity v1 v2 ≤ 1 := by
  unfold cosine_similarity
  dsimp only
  split_ifs with hempty hn
  · norm_num
  · have hget1 : ∀ k, 0 ≤ v1.get k 0 := by
      intro k; unfold RMap.get; split_ifs; exacts [h1 k, le_refl 0]
    have hget2 : ∀ k, 0 ≤ v2.get k 0 := by
      intro k; unfold RMap.get; split_ifs; exacts [h2 k, le_refl 0]
    have hdot : 0 ≤ ∑ k ∈ v1.keys ∪ v2.keys, v1.get k 0 * v2.get k 0 :=
      Finset.sum_nonneg fun k _ => mul_nonneg (hget1 k) (hget2 k)
    have hA : (∑ k ∈ v1.keys ∪ v2.keys, (v1.get k 0) ^ 2) =
        ∑ k ∈ v1.keys, (v1.val k) ^ 2 := by
      rw [← Finset.sum_subset Finset.subset_union_left]
      · exact Finset.sum_congr rfl fun k hk => by rw [RMap.get, if_pos hk]
      · intro k _ hk
        rw [RMap.get, if_neg hk]
        norm_num
    have hB : (∑ k ∈ v1.keys ∪ v2.keys, (v2.get k 0) ^ 2) =
        ∑ k ∈ v2.keys, (v2.val k) ^ 2 := by
      rw [← Finset.sum_subset Finset.subset_union_right]
      · exact Finset.sum_congr rfl fun k hk => by rw [RMap.get, if_pos hk]
      · intro k _ hk
        rw [RMap.get, if_neg hk]
        norm_num
    have hcs := Finset.sum_mul_sq_le_sq_mul_sq (v1.keys ∪ v2.keys)
      (fun k => v1.get k 0) (fun k => v2.get k 0)
    rw [hA, hB] at hcs
    have hnpos : 0 < Real.sqrt (∑ k ∈ v1.keys, (v1.val k) ^ 2) *
        Real.sqrt (∑ k ∈ v2.keys, (v2.val k) ^ 2) := mul_pos hn.1 hn.2
    constructor
    · exact div_nonneg hdot hnpos.le
    · rw [div_le_one hnpos]
      have hSA : (0 : ℝ) ≤ ∑ k ∈ v1.keys, (v1.val k) ^ 2 :=
        Finset.sum_nonneg fun k _ => sq_nonneg _
      have hSB : (0 : ℝ) ≤ ∑ k ∈ v2.keys, (v2.val k) ^ 2 :=
        Finset.sum_nonneg fun k _ => sq_nonneg _
      calc ∑ k ∈ v1.keys ∪ v2.keys, v1.get k 0 * v2.get k 0
          = Real.sqrt ((∑ k ∈ v1.keys ∪ v2.keys, v1.get k 0 * v2.get k 0) ^ 2) :=
            (Real.sqrt_sq hdot).symm
        _ ≤ Real.sqrt ((∑ k ∈ v1.keys, (v1.val k) ^ 2) *
              (∑ k ∈ v2.keys, (v2.val k) ^ 2)) := Real.sqrt_le_sqrt hcs
        _ = Real.sqrt (∑ k ∈ v1.keys, (v1.val k) ^ 2) *
              Real.sqrt (∑ k ∈ v2.keys, (v2.val k) ^ 2) := Real.sqrt_mul hSA _
  · norm_num

theorem compute_tf_get_nonneg (toks : List Str) (k : Str) :
    0 ≤ (compute_tf toks).get k 0 := by
  unfold compute_tf RMap.get
  split_ifs <;> positivity

theorem compute_idf_get_nonneg (docs : List (List Str)) (k : Str) :
    0 ≤ (compute_idf docs).get k 1 := by
  unfold compute_idf RMap.get
  split_ifs with h1 h2 h3
  · norm_num
  · norm_num
  · have hdf : ((docs.filter (fun d => k ∈ d)).length : ℝ) + 1 ≤ (docs.length : ℝ) + 1 := by
      have := List.length_filter_le (fun d => k ∈ d) docs
      exact_mod_cast Nat.add_le_add_right this 1
    have harg : (1 : ℝ) ≤ ((docs.length : ℝ) + 1) /
        (((docs.filter (fun d => k ∈ d)).length : ℝ) + 1) := by
      rw [le_div_iff₀ (by positivity)]
      linarith
    have := Real.log_nonneg harg
    linarith
  · norm_num

theorem tfidfPair_vals_nonneg (ct tt : List Str) :
    (∀ k, 0 ≤ (tfidfPair ct tt).1.val k) ∧ (∀ k, 0 ≤ (tfidfPair ct tt).2.val k) := by
  constructor <;> intro k <;>
    exact mul_nonneg (compute_tf_get_nonneg _ k) (compute_idf_get_nonneg _ k)

/- ===================================================================
   The combined-score formula as the specification states it
   =================================================================== -/

/- ===================================================================
   Claim C4: the combined score
   =================================================================== -/

/-- C4 (amended): for every non-empty contract section text, the
combined score of `compare_section` equals the weighted sum
0.15·jaccard + 0.20·bigram + 0.15·overlap + 0.20·edit-ratio +
0.15·cosine + 0.15·keyword-coverage of the six metrics; the weights sum
to 1 and the combined score lies in `[0, 1]`.  (On an empty contract
section the code returns 0 without computing the metrics.) -/
theorem C4_combined_formula (R : SeqRatio) (c t : Str) (kws : List Str)
    (h : c ≠ []) :
    (compare_section R c t kws).combined_score = specCombined R c t kws ∧
    ((0.15 : ℝ) + 0.20 + 0.15 + 0.20 + 0.15 + 0.15 = 1) ∧
    0 ≤ (compare_section R c t kws).combined_score ∧
    (compare_section R c t kws).combined_score ≤ 1 := by
  have heq : (compare_section R c t kws).combined_score = specCombined R c t kws := by
    simp only [compare_section, if_neg h]
    rfl
  have b1 := jaccard_similarity_bounds (tokenize c).toFinset (tokenize t).toFinset
  have b2 := jaccard_similarity_bounds (get_ngrams (tokenize c) 2)
    (get_ngrams (tokenize t) 2)
  have b3 := overlap_coefficient_bounds (tokenize c).toFinset (tokenize t).toFinset
  have b4 := levenshtein_ratio_bounds R (c.take 1000) (t.take 1000)
  have b5 := cosine_similarity_bounds (tfidfPair (tokenize c) (tokenize t)).1
    (tfidfPair (tokenize c) (tokenize t)).2
    (tfidfPair_vals_nonneg _ _).1 (tfidfPair_vals_nonneg _ _).2
  have b6 := keyword_match_score_bounds c kws
  refine ⟨heq, by norm_num, ?_, ?_⟩
  · rw [heq]; unfold specCombined; linarith
  · rw [heq]; unfold specCombined; linarith

/-- C4 counterexample: the claim fails as stated "for every pair of
section texts and keyword list": on the empty contract section with the
empty-string keyword configured, `compare_section` returns combined
score 0 from its early exit, while the weighted sum of the six metrics
at that input is 0.15 (the empty keyword is a substring of the empty
section, so keyword coverage is 1). -/
theorem C4_counterexample_empty_section :
    (compare_section eqRatio [] [] [([] : Str)]).combined_score = 0 ∧
    specCombined eqRatio [] [] [([] : Str)] = 0.15 := by
  constructor
  · simp [compare_section, emptyComparison]
  · have hsub : isSubstr (pyLower ([] : Str)) (pyLower ([] : Str)) = true := by decide
    have hkw : (keyword_match_score ([] : Str) [([] : Str)]).1 = 1 := by
      unfold keyword_match_score
      rw [if_neg (by simp)]
      simp [hsub]
    unfold specCombined
    rw [hkw]
    have h0 : tokenize ([] : Str) = [] := rfl
    rw [h0]
    norm_num [jaccard_similarity, overlap_coefficient, levenshtein_ratio,
      cosine_similarity, get_ngrams, tfidfPair]

/-- Witness for the amended C4 at a concrete input. -/
theorem C4_combined_formula_witness :
    ((strL "ab") ≠ ([] : Str)) ∧
    ((compare_section eqRatio (strL "ab") [] []).combined_score =
        specCombined eqRatio (strL "ab") [] [] ∧
      ((0.15 : ℝ) + 0.20 + 0.15 + 0.20 + 0.15 + 0.15 = 1) ∧
      0 ≤ (compare_section eqRatio (strL "ab") [] []).combined_score ∧
      (compare_section eqRatio (strL "ab") [] []).combined_score ≤ 1) :=
  ⟨by decide, C4_combined_formula eqRatio (strL "ab") [] [] (by decide)⟩

/- ===================================================================
   Claim C8: best-section matching
   =================================================================== -/

/-- When no remaining item beats the running best score, the loop keeps
its accumulator. -/
theorem bestLoop_noupdate (R : SeqRatio) (nn t : Str) (k : List Str) :
    ∀ (items : List (Str × Str)) (bs : ℝ)
      (best : Option Str × Option SectionComparison),
      (∀ it ∈ items, itemTotal R nn t k it ≤ bs) →
      bestLoop R nn t k items bs best = best := by
  intro items
  induction items with
  | nil => intro bs best _; rfl
  | cons hd rest ih =>
    intro bs best hle
    obtain ⟨nm, body⟩ := hd
    rw [bestLoop_cons]
    rw [if_neg (not_lt.2 (hle _ (by simp)))]
    exact ih bs best fun it hit => hle it (by simp [hit])

/-- When some item beats the running best score, the loop returns the
pair of the earliest item among those attaining the maximum total. -/
theorem bestLoop_found (R : SeqRatio) (nn t : Str) (k : List Str) :
    ∀ (items : List (Str × Str)) (bs : ℝ)
      (best : Option Str × Option SectionComparison),
      (∃ it ∈ items, bs < itemTotal R nn t k it) →
      ∃ i : Fin items.length,
        bestLoop R nn t k items bs best =
          (some (items.get i).1,
           some (matchedCmp R nn t k (items.get i).1 (items.get i).2)) ∧
        bs < itemTotal R nn t k (items.get i) ∧
        (∀ j : Fin items.length,
          itemTotal R nn t k (items.get j) ≤ itemTotal R nn t k (items.get i)) ∧
        (∀ j : Fin items.length, j < i →
          itemTotal R nn t k (items.get j) < itemTotal R nn t k (items.get i)) := by
  intro items
  induction items with
  | nil =>
    intro bs best h
    simp at h
  | cons hd rest ih =>
    intro bs best h
    obtain ⟨nm, body⟩ := hd
    by_cases hupd : bs < itemTotal R nn t k (nm, body)
    · by_cases hrest : ∃ it ∈ rest, itemTotal R nn t k (nm, body) < itemTotal R nn t k it
      · obtain ⟨i', hres, hgt, hmax, hfirst⟩ := ih (itemTotal R nn t k (nm, body))
          (some nm, some (matchedCmp R nn t k nm body)) hrest
        refine ⟨i'.succ, ?_, ?_, ?_, ?_⟩
        · rw [bestLoop_cons, if_pos hupd]
          simpa using hres
        · simpa using lt_trans hupd hgt
        · intro j
          refine Fin.cases ?_ ?_ j
          · simpa using le_of_lt hgt
          · intro j'
            simpa using hmax j'
        · intro j
          refine Fin.cases ?_ ?_ j
          · intro _
            simpa using hgt
          · intro j' hj'
            have : j' < i' := by
              simpa [Fin.succ_lt_succ_iff] using hj'
            simpa using hfirst j' this
      · push_neg at hrest
        refine ⟨⟨0, by simp⟩, ?_, by simpa using hupd, ?_, ?_⟩
        · rw [bestLoop_cons, if_pos hupd]
          exact bestLoop_noupdate R nn t k rest _ _ hrest
        · intro j
          refine Fin.cases ?_ ?_ j
          · simp
          · intro j'
            simpa using hrest (rest.get j') (rest.get_mem _ _)
        · intro j hj
          exact absurd hj (by simp [Fin.lt_def])
    · have hmem : ∃ it ∈ rest, bs < itemTotal R nn t k it := by
        obtain ⟨it, hit, hbs⟩ := h
        rcases List.mem_cons.1 hit with rfl | hit'
        · exact absurd hbs hupd
        · exact ⟨it, hit', hbs⟩
      obtain ⟨i', hres, hgt, hmax, hfirst⟩ := ih bs best hmem
      refine ⟨i'.succ, ?_, ?_, ?_, ?_⟩
      · rw [bestLoop_cons, if_neg hupd]
        simpa using hres
      · simpa using hgt
      · intro j
        refine Fin.cases ?_ ?_ j
        · simpa using le_trans (not_lt.1 hupd) (le_of_lt hgt)
        · intro j'
          simpa using hmax j'
      · intro j
        refine Fin.cases ?_ ?_ j
        · intro _
          simpa using lt_of_le_of_lt (not_lt.1 hupd) hgt
        · intro j' hj'
          have : j' < i' := by
            simpa [Fin.succ_lt_succ_iff] using hj'
          simpa using hfirst j' this

/-- C8 counterexample: on a non-empty collection whose only candidate
scores total 0 (empty body, name with no similarity), the matcher
records nothing at all — the claim that it always records the maximising
contract section fails. -/
theorem C8_counterexample_zero_total :
    find_best_matching_section eqRatio (strL "1. АБВ") [(([] : Str), ([] : Str))]
      (strL "шаблон") [] = (none, none) := by
  unfold find_best_matching_section
  have h1 : itemTotal eqRatio (pyLower (stripLeadingNum (strL "1. АБВ")))
      (strL "шаблон") [] (([] : Str), ([] : Str)) = 0 := by
    unfold itemTotal
    rw [compare_section_empty]
    have hlev : levenshtein_ratio eqRatio (pyLower (stripLeadingNum (strL "1. АБВ")))
        (pyLower (stripLeadingNum ([] : Str))) = 0 := by
      unfold levenshtein_ratio
      have h2 : pyLower (stripLeadingNum ([] : Str)) = [] := rfl
      rw [if_pos (Or.inr h2)]
    simp [emptyComparison, hlev]
  rw [bestLoop_cons, h1]
  rw [if_neg (by norm_num)]
  rfl

/-- C8 (amended): whenever some contract section's total
`0.7·content + 0.3·name-similarity` is strictly positive,
`find_best_matching_section` records the contract section attaining the
maximal total, earliest in document order on ties, and attaches its
comparison; when every total is ≤ 0 (in particular 0), nothing is
recorded. -/
theorem C8_best_match_argmax (R : SeqRatio) (sn : Str) (cs : List (Str × Str))
    (tt : Str) (kws : List Str) :
    ((∃ it ∈ cs, 0 < itemTotal R (pyLower (stripLeadingNum sn)) tt kws it) →
      ∃ i : Fin cs.length,
        find_best_matching_section R sn cs tt kws =
          (some (cs.get i).1,
           some (matchedCmp R (pyLower (stripLeadingNum sn)) tt kws
             (cs.get i).1 (cs.get i).2)) ∧
        (∀ j : Fin cs.length,
          itemTotal R (pyLower (stripLeadingNum sn)) tt kws (cs.get j) ≤
            itemTotal R (pyLower (stripLeadingNum sn)) tt kws (cs.get i)) ∧
        (∀ j : Fin cs.length, j < i →
          itemTotal R (pyLower (stripLeadingNum sn)) tt kws (cs.get j) <
            itemTotal R (pyLower (stripLeadingNum sn)) tt kws (cs.get i))) ∧
    ((∀ it ∈ cs, itemTotal R (pyLower (stripLeadingNum sn)) tt kws it ≤ 0) →
      find_best_matching_section R sn cs tt kws = (none, none)) := by
  constructor
  · intro h
    obtain ⟨i, hres, _, hmax, hfirst⟩ :=
      bestLoop_found R (pyLower (stripLeadingNum sn)) tt kws cs 0 (none, none) h
    exact ⟨i, hres, hmax, hfirst⟩
  · intro h
    exact bestLoop_noupdate R (pyLower (stripLeadingNum sn)) tt kws cs 0 (none, none) h

/- ===================================================================
   Self-comparison lemmas (identical contract and template text)
   =================================================================== -/

theorem combined_eq_spec (R : SeqRatio) (c t : Str) (kws : List Str) (h : c ≠ []) :
    (compare_section R c t kws).combined_score = specCombined R c t kws := by
  simp only [compare_section, if_neg h]
  rfl

theorem compare_section_status_eq (R : SeqRatio) (c t : Str) (kws : List Str)
    (h : c ≠ []) :
    (compare_section R c t kws).status =
      (if (0.7 : ℝ) ≤ specCombined R c t kws then "match"
       else if (0.4 : ℝ) ≤ specCombined R c t kws then "partial"
       else "deviation") := by
  simp only [compare_section, if_neg h]
  rfl

theorem jaccard_self {α : Type} [DecidableEq α] (s : Finset α) (h : s ≠ ∅) :
    jaccard_similarity s s = 1 := by
  unfold jaccard_similarity
  dsimp only
  rw [if_neg (by simp [h])]
  rw [Finset.inter_self, Finset.union_self]
  have hc : 0 < s.card := Finset.card_pos.2 (Finset.nonempty_iff_ne_empty.2 h)
  rw [if_pos hc]
  exact div_self (by exact_mod_cast hc.ne')

theorem overlap_self {α : Type} [DecidableEq α] (s : Finset α) (h : s ≠ ∅) :
    overlap_coefficient s s = 1 := by
  unfold overlap_coefficient
  dsimp only
  rw [if_neg (by simp [h])]
  rw [Finset.inter_self, min_self]
  have hc : 0 < s.card := Finset.card_pos.2 (Finset.nonempty_iff_ne_empty.2 h)
  rw [if_pos hc]
  exact div_self (by exact_mod_cast hc.ne')

theorem levenshtein_ratio_self (R : SeqRatio) (s : Str) (h : s ≠ []) :
    levenshtein_ratio R s s = 1 := by
  unfold levenshtein_ratio
  rw [if_neg (by simp [h])]
  have hmap : pyLower s ≠ [] := by
    simp only [pyLower, ne_eq, List.map_eq_nil_iff]
    exact h
  exact R.self_eq_one _ hmap

theorem cosine_self (v : RMap) (hk : v.keys ≠ ∅)
    (hpos : 0 < ∑ k ∈ v.keys, (v.val k) ^ 2) :
    cosine_similarity v v = 1 := by
  unfold cosine_similarity
  dsimp only
  rw [if_neg (by simp [hk])]
  rw [Finset.union_self]
  have hdot : (∑ k ∈ v.keys, v.get k 0 * v.get k 0) =
      ∑ k ∈ v.keys, (v.val k) ^ 2 := by
    refine Finset.sum_congr rfl fun k hk' => ?_
    rw [RMap.get, if_pos hk']
    ring
  rw [hdot]
  have hs : 0 < Real.sqrt (∑ k ∈ v.keys, (v.val k) ^ 2) := Real.sqrt_pos.2 hpos
  rw [if_pos ⟨hs, hs⟩]
  rw [Real.mul_self_sqrt hpos.le]
  exact div_self hpos.ne'

theorem get_ngrams_ne_empty (toks : List Str) (h : 2 ≤ toks.length) :
    get_ngrams toks 2 ≠ ∅ := by
  unfold get_ngrams
  rw [if_neg (by omega)]
  intro hempt
  rw [List.toFinset_eq_empty_iff, List.map_eq_nil_iff, List.range_eq_nil] at hempt
  omega

theorem compute_tf_get_pos (toks : List Str) (h : toks ≠ []) (k : Str)
    (hk : k ∈ toks) : 0 < (compute_tf toks).get k 0 := by
  unfold compute_tf RMap.get
  rw [if_neg h]
  dsimp only
  rw [if_pos (List.mem_toFinset.2 hk)]
  have h1 : 0 < toks.count k := List.count_pos_iff.2 hk
  have h2 : 0 < toks.length := List.length_pos.2 h
  have h1' : (0 : ℝ) < toks.count k := by exact_mod_cast h1
  have h2' : (0 : ℝ) < toks.length := by exact_mod_cast h2
  positivity

theorem compute_idf_get_pos (docs : List (List Str)) (k : Str) :
    0 < (compute_idf docs).get k 1 := by
  unfold compute_idf RMap.get
  split_ifs with h1 h2 h3
  · simp at h2
  · norm_num
  · have hdf : ((docs.filter (fun d => k ∈ d)).length : ℝ) + 1 ≤ (docs.length : ℝ) + 1 := by
      have := List.length_filter_le (fun d => k ∈ d) docs
      exact_mod_cast Nat.add_le_add_right this 1
    have harg : (1 : ℝ) ≤ ((docs.length : ℝ) + 1) /
        (((docs.filter (fun d => k ∈ d)).length : ℝ) + 1) := by
      rw [le_div_iff₀ (by positivity)]
      linarith
    have := Real.log_nonneg harg
    linarith
  · norm_num

theorem tfidf_self_norm_pos (toks : List Str) (h : toks ≠ []) :
    0 < ∑ k ∈ (tfidfPair toks toks).1.keys, ((tfidfPair toks toks).1.val k) ^ 2 := by
  obtain ⟨a, rest, rfl⟩ : ∃ a rest, toks = a :: rest := by
    cases toks with
    | nil => exact absurd rfl h
    | cons a rest => exact ⟨a, rest, rfl⟩
  have hmem : a ∈ a :: rest := by simp
  have hval : 0 < (tfidfPair (a :: rest) (a :: rest)).1.val a := by
    refine mul_pos ?_ ?_
    · exact compute_tf_get_pos (a :: rest) h a hmem
    · exact compute_idf_get_pos [a :: rest, a :: rest] a
  have hk : a ∈ (tfidfPair (a :: rest) (a :: rest)).1.keys :=
    List.mem_toFinset.2 hmem
  exact Finset.sum_pos' (fun k _ => sq_nonneg _) ⟨a, hk, pow_pos hval 2⟩

theorem specCombined_self_ge (R : SeqRatio) (t : Str) (kws : List Str)
    (h2 : 2 ≤ (tokenize t).length) :
    (0.85 : ℝ) ≤ specCombined R t t kws := by
  have htok : tokenize t ≠ [] := by
    intro h0
    rw [h0] at h2
    simp at h2
  have ht : t ≠ [] := by
    intro h0
    rw [h0] at h2
    simp [tokenize] at h2
  have hset : (tokenize t).toFinset ≠ ∅ := by
    simpa [List.toFinset_eq_empty_iff] using htok
  have htake : t.take 1000 ≠ [] := by
    simp only [ne_eq, List.take_eq_nil_iff]
    push_neg
    exact ⟨by norm_num, ht⟩
  have hpairEq : (tfidfPair (tokenize t) (tokenize t)).2 =
      (tfidfPair (tokenize t) (tokenize t)).1 := rfl
  have hkeys : (tfidfPair (tokenize t) (tokenize t)).1.keys ≠ ∅ := hset
  have hkw := (keyword_match_score_bounds t kws).1
  unfold specCombined
  rw [jaccard_self _ hset,
    jaccard_self _ (get_ngrams_ne_empty (tokenize t) h2),
    overlap_self _ hset,
    levenshtein_ratio_self R _ htake, hpairEq,
    cosine_self _ hkeys (tfidf_self_norm_pos (tokenize t) htok)]
  linarith

/-- Comparing a non-trivial text (at least two tokens) to itself yields
status Match. -/
theorem compare_section_self_match (R : SeqRatio) (t : Str) (kws : List Str)
    (h2 : 2 ≤ (tokenize t).length) :
    (compare_section R t t kws).status = "match" ∧
    (compare_section R t t kws).found = true := by
  have ht : t ≠ [] := by
    intro h0
    rw [h0] at h2
    simp [tokenize] at h2
  constructor
  · rw [compare_section_status_eq R t t kws ht]
    rw [if_pos (le_trans (by norm_num) (specCombined_self_ge R t kws h2))]
  · exact (compare_section_found_iff R t t kws).2 ht

/- ===================================================================
   The aggregation formula as the specification states it
   =================================================================== -/

theorem specWeight_ge_one (sa : SectionAnalysis) : (1 : ℝ) ≤ specWeight sa := by
  unfold specWeight; split_ifs <;> norm_num

theorem specContribution_nonneg (sa : SectionAnalysis) : 0 ≤ specContribution sa := by
  unfold specContribution specWeight; split_ifs <;> norm_num

theorem specContribution_le_weight (sa : SectionAnalysis) :
    specContribution sa ≤ specWeight sa := by
  unfold specContribution specWeight; split_ifs <;> norm_num

/-- What one pass of the section loop does to the accumulator: it
appends exactly one analysis entry `sa` (whose comparison is either
absent or attached from one of the contract sections), adds `sa`'s
weight to the total weight, adds exactly the spec formula's contribution
for `sa`'s status to the total score, only appends to the risks, and
appends the section to `missing_sections` exactly when nothing found. -/
theorem sectionStep_eq (R : SeqRatio) (cs : List (Str × Str)) (acc : CompAcc)
    (e : Str × SectionTemplate) :
    ∃ sa : SectionAnalysis,
      sa.section_name = e.1 ∧
      sa.required = e.2.required ∧
      (sa.comparison = emptyComparison ∨
        ∃ nm body, (nm, body) ∈ cs ∧
          sa.comparison =
            matchedCmp R (pyLower (stripLeadingNum e.1)) e.2.template
              e.2.keywords nm body) ∧
      (sectionStep R cs acc e).analyses = acc.analyses ++ [sa] ∧
      (sectionStep R cs acc e).total_weight = acc.total_weight + specWeight sa ∧
      (sectionStep R cs acc e).total_score = acc.total_score + specContribution sa ∧
      (∃ srisks, (sectionStep R cs acc e).risks = acc.risks ++ srisks) ∧
      (sa.comparison.found = false →
        (sectionStep R cs acc e).missing_sections = acc.missing_sections ++ [e.1]) ∧
      (sa.comparison.found = true →
        (sectionStep R cs acc e).missing_sections = acc.missing_sections) := by
  rcases find_best_spec R e.1 cs e.2.template e.2.keywords with h | ⟨nm, body, hmem, h⟩
  · refine ⟨⟨e.1, e.2.required, none, emptyComparison,
      sectionRisks cs e.2.risk_patterns none⟩, rfl, rfl, Or.inl rfl, ?_, ?_, ?_, ?_, ?_, ?_⟩
    · simp only [sectionStep, h]
      by_cases hr : e.2.required <;> simp [hr, sectionRisks]
    · simp only [sectionStep, h]
      by_cases hr : e.2.required <;> simp [hr, specWeight] <;> norm_num
    · simp only [sectionStep, h]
      by_cases hr : e.2.required <;>
        simp [hr, specContribution, specWeight, emptyComparison]
    · refine ⟨sectionRisks cs e.2.risk_patterns none, ?_⟩
      simp only [sectionStep, h]
      by_cases hr : e.2.required <;> simp [hr]
    · intro _
      simp only [sectionStep, h]
      by_cases hr : e.2.required <;> simp [hr]
    · intro hfound
      simp [emptyComparison] at hfound
  · set mc := matchedCmp R (pyLower (stripLeadingNum e.1)) e.2.template
        e.2.keywords nm body with hmc
    have hstat : mc.found = true →
        mc.status = "match" ∨ mc.status = "partial" ∨ mc.status = "deviation" := by
      intro hf
      rw [hmc, matchedCmp_status]
      refine compare_section_status_cases R body e.2.template e.2.keywords ?_
      have hiff := (compare_section_found_iff R body e.2.template e.2.keywords).1
      rw [hmc, matchedCmp_found] at hf
      exact hiff hf
    have hmiss : mc.found = false → mc.status = "missing" := by
      intro hf0
      have hb : body = [] := by
        by_contra hb
        have hft := (compare_section_found_iff R body e.2.template e.2.keywords).2 hb
        rw [hmc, matchedCmp_found] at hf0
        rw [hf0] at hft
        exact Bool.false_ne_true hft
      rw [hmc, matchedCmp_status, hb, compare_section_empty]
      rfl
    refine ⟨⟨e.1, e.2.required, some nm, mc,
      sectionRisks cs e.2.risk_patterns (some nm)⟩, rfl, rfl,
      Or.inr ⟨nm, body, hmem, rfl⟩, ?_, ?_, ?_, ?_, ?_, ?_⟩
    · simp only [sectionStep, h]
      by_cases hf : mc.found = true <;>
        by_cases h1 : mc.status = "match" <;>
        by_cases h2 : mc.status = "partial" <;>
        by_cases hr : e.2.required <;>
        simp [hf, h1, h2, hr]
    · simp only [sectionStep, h]
      by_cases hf : mc.found = true <;>
        by_cases h1 : mc.status = "match" <;>
        by_cases h2 : mc.status = "partial" <;>
        by_cases hr : e.2.required <;>
        simp [hf, h1, h2, hr, specWeight] <;> norm_num
    · simp only [sectionStep, h]
      by_cases hf : mc.found = true
      · by_cases h1 : mc.status = "match"
        · by_cases hr : e.2.required <;>
            simp [hf, h1, hr, specContribution, specWeight] <;> norm_num
        · by_cases h2 : mc.status = "partial"
          · by_cases hr : e.2.required <;>
              simp [hf, h1, h2, hr, specContribution, specWeight] <;> norm_num
          · have h3 : mc.status = "deviation" := by
              rcases hstat hf with hx | hx | hx <;> simp_all
            by_cases hr : e.2.required <;>
              simp [hf, h1, h2, h3, hr, specContribution, specWeight] <;> norm_num
      · have h3 : mc.status = "missing" :=
          hmiss (by simpa using hf)
        have h1 : ¬mc.status = "match" := by simp [h3]
        have h2 : ¬mc.status = "partial" := by simp [h3]
        have h4 : ¬mc.status = "deviation" := by simp [h3]
        by_cases hr : e.2.required <;>
          simp [hf, h1, h2, h4, hr, specContribution, specWeight]
    · refine ⟨sectionRisks cs e.2.risk_patterns (some nm), ?_⟩
      simp only [sectionStep, h]
      by_cases hf : mc.found = true <;>
        by_cases h1 : mc.status = "match" <;>
        by_cases h2 : mc.status = "partial" <;>
        by_cases hr : e.2.required <;>
        simp [hf, h1, h2, hr]
    · intro hnf
      have hnf0 : mc.found = false := hnf
      have hnf' : ¬mc.found = true := by simp [hnf0]
      simp only [sectionStep, h]
      by_cases hr : e.2.required <;> simp [hnf', hr]
    · intro hf
      have hf0 : mc.found = true := hf
      simp only [sectionStep, h]
      by_cases h1 : mc.status = "match" <;>
        by_cases h2 : mc.status = "partial" <;>
        by_cases hr : e.2.required <;>
        simp [hf0, h1, h2, hr]

/-- The section loop appends one analysis per template section; its
total weight and total score are exactly the spec formula's sums over
the new analyses, and the found risks only grow. -/
theorem comp_fold (R : SeqRatio) (cs : List (Str × Str)) :
    ∀ (l : List (Str × SectionTemplate)) (acc : CompAcc),
      ∃ sas : List SectionAnalysis,
        (l.foldl (sectionStep R cs) acc).analyses = acc.analyses ++ sas ∧
        (l.foldl (sectionStep R cs) acc).total_weight = acc.total_weight + sumW sas ∧
        (l.foldl (sectionStep R cs) acc).total_score = acc.total_score + sumC sas ∧
        (∃ srisks, (l.foldl (sectionStep R cs) acc).risks = acc.risks ++ srisks) ∧
        sas.length = l.length := by
  intro l
  induction l with
  | nil =>
    intro acc
    exact ⟨[], by simp, by simp [sumW], by simp [sumC], ⟨[], by simp⟩, rfl⟩
  | cons e rest ih =>
    intro acc
    obtain ⟨sa, _, _, _, ha, hw, hs, ⟨sr, hrisk⟩, _, _⟩ := sectionStep_eq R cs acc e
    obtain ⟨sas, ha2, hw2, hs2, ⟨sr2, hrisk2⟩, hlen⟩ := ih (sectionStep R cs acc e)
    refine ⟨sa :: sas, ?_, ?_, ?_, ⟨sr ++ sr2, ?_⟩, ?_⟩
    · simp only [List.foldl_cons] at ha2 ⊢
      rw [ha2, ha]
      simp
    · simp only [List.foldl_cons] at hw2 ⊢
      rw [hw2, hw]
      simp [sumW]
      ring
    · simp only [List.foldl_cons] at hs2 ⊢
      rw [hs2, hs]
      simp [sumC]
      ring
    · simp only [List.foldl_cons] at hrisk2 ⊢
      rw [hrisk2, hrisk]
      simp
    · simp [hlen]

theorem sumW_nonneg (l : List SectionAnalysis) : 0 ≤ sumW l := by
  induction l with
  | nil => simp [sumW]
  | cons a t ih =>
    have h1 := specWeight_ge_one a
    simp only [sumW, List.map_cons, List.sum_cons] at ih ⊢
    linarith

theorem sumW_pos (l : List SectionAnalysis) (h : l ≠ []) : 0 < sumW l := by
  cases l with
  | nil => exact absurd rfl h
  | cons a t =>
    have h1 := specWeight_ge_one a
    have h2 := sumW_nonneg t
    simp only [sumW, List.map_cons, List.sum_cons]
    simp only [sumW] at h2
    linarith

theorem sumC_nonneg (l : List SectionAnalysis) : 0 ≤ sumC l := by
  induction l with
  | nil => simp [sumC]
  | cons a t ih =>
    have h1 := specContribution_nonneg a
    simp only [sumC, List.map_cons, List.sum_cons] at ih ⊢
    linarith

theorem sumC_le_sumW (l : List SectionAnalysis) : sumC l ≤ sumW l := by
  induction l with
  | nil => simp [sumC, sumW]
  | cons a t ih =>
    have h1 := specContribution_le_weight a
    simp only [sumC, sumW, List.map_cons, List.sum_cons] at ih ⊢
    linarith

/-- The compliance score field of `full_comparison`, written out. -/
theorem full_comparison_score (R : SeqRatio) (text : Str) (form : TypicalForm) :
    (full_comparison R text form).compliance_score =
      (if 0 < (form.sections.foldl (sectionStep R (extract_sections text)) initAcc).total_weight
       then max 0
         (((form.sections.foldl (sectionStep R (extract_sections text)) initAcc).total_score /
            (form.sections.foldl (sectionStep R (extract_sections text)) initAcc).total_weight) * 100 -
          (((((form.sections.foldl (sectionStep R (extract_sections text)) initAcc).risks ++
               check_risk_patterns text form.global_risk_patterns).filter
                (fun r => r.risk_level = "red")).length : ℝ) * 0.15 +
           ((((form.sections.foldl (sectionStep R (extract_sections text)) initAcc).risks ++
               check_risk_patterns text form.global_risk_patterns).filter
                (fun r => r.risk_level = "yellow")).length : ℝ) * 0.05) * 100)
       else 0) := rfl

/-- The sections-analysis field of `full_comparison`, written out. -/
theorem full_comparison_analyses (R : SeqRatio) (text : Str) (form : TypicalForm) :
    (full_comparison R text form).sections_analysis =
      (form.sections.foldl (sectionStep R (extract_sections text)) initAcc).analyses := rfl

/-- The risks field of `full_comparison`, written out. -/
theorem full_comparison_risks (R : SeqRatio) (text : Str) (form : TypicalForm) :
    (full_comparison R text form).risks =
      (form.sections.foldl (sectionStep R (extract_sections text)) initAcc).risks ++
        check_risk_patterns text form.global_risk_patterns := rfl

/-- The missing-sections field of `full_comparison`, written out. -/
theorem full_comparison_missing (R : SeqRatio) (text : Str) (form : TypicalForm) :
    (full_comparison R text form).missing_sections =
      (form.sections.foldl (sectionStep R (extract_sections text)) initAcc).missing_sections := rfl

/- ===================================================================
   Claims C1 and C2: the aggregation
   =================================================================== -/

/-- C1: for every sequence-matcher model, contract text and typical
form, the compliance score of `full_comparison` lies in `[0, 100]`. -/
theorem C1_compliance_score_in_range (R : SeqRatio) (text : Str)
    (form : TypicalForm) :
    0 ≤ (full_comparison R text form).compliance_score ∧
    (full_comparison R text form).compliance_score ≤ 100 := by
  obtain ⟨sas, _, hw, hs, _, _⟩ :=
    comp_fold R (extract_sections text) form.sections initAcc
  rw [full_comparison_score]
  rw [hw, hs]
  simp only [show initAcc.total_weight = 0 from rfl,
    show initAcc.total_score = 0 from rfl, zero_add]
  split_ifs with hpos
  · constructor
    · exact le_max_left 0 _
    · have hdiv : sumC sas / sumW sas ≤ 1 :=
        (div_le_one hpos).2 (sumC_le_sumW sas)
      refine max_le (by norm_num) ?_
      have hr1 : (0 : ℝ) ≤
          (((((form.sections.foldl (sectionStep R (extract_sections text)) initAcc).risks ++
               check_risk_patterns text form.global_risk_patterns).filter
                (fun r => r.risk_level = "red")).length : ℝ) * 0.15 +
           ((((form.sections.foldl (sectionStep R (extract_sections text)) initAcc).risks ++
               check_risk_patterns text form.global_risk_patterns).filter
                (fun r => r.risk_level = "yellow")).length : ℝ) * 0.05) * 100 := by
        positivity
      nlinarith
  · norm_num

/-- C2: for every sequence-matcher model, contract text and typical form
with at least one template section, `full_comparison` computes the
compliance score by exactly the aggregation formula of the spec:
`max 0 ((Σ contributions / Σ weights) · 100 − (red·15 + yellow·5))`,
with weights 2/1 for required/optional sections, contributions
weight·{1, 0.6, 0.3, 0} by status, and the finding counts taken over the
report's risks. -/
theorem C2_aggregation_formula (R : SeqRatio) (text : Str) (form : TypicalForm)
    (h : form.sections ≠ []) :
    (full_comparison R text form).compliance_score =
      max 0
        ((sumC (full_comparison R text form).sections_analysis /
            sumW (full_comparison R text form).sections_analysis) * 100 -
         ((((full_comparison R text form).risks.filter
              (fun r => r.risk_level = "red")).length : ℝ) * 15 +
          (((full_comparison R text form).risks.filter
              (fun r => r.risk_level = "yellow")).length : ℝ) * 5)) := by
  obtain ⟨sas, ha, hw, hs, _, hlen⟩ :=
    comp_fold R (extract_sections text) form.sections initAcc
  have hsas : sas ≠ [] := by
    intro hnil
    rw [hnil] at hlen
    exact h (List.length_eq_zero.1 hlen.symm)
  have hpos : 0 < sumW sas := sumW_pos sas hsas
  rw [full_comparison_score, full_comparison_analyses, full_comparison_risks]
  rw [hw, hs, ha]
  simp only [show initAcc.total_weight = 0 from rfl,
    show initAcc.total_score = 0 from rfl,
    show initAcc.analyses = ([] : List SectionAnalysis) from rfl,
    zero_add, List.nil_append]
  rw [if_pos hpos]
  congr 1
  ring

/-- Witness for C2 at a concrete input (the one-section demonstration
form on the empty contract text). -/
theorem C2_aggregation_formula_witness :
    (full_comparison eqRatio [] demoForm).compliance_score =
      max 0
        ((sumC (full_comparison eqRatio [] demoForm).sections_analysis /
            sumW (full_comparison eqRatio [] demoForm).sections_analysis) * 100 -
         ((((full_comparison eqRatio [] demoForm).risks.filter
              (fun r => r.risk_level = "red")).length : ℝ) * 15 +
          (((full_comparison eqRatio [] demoForm).risks.filter
              (fun r => r.risk_level = "yellow")).length : ℝ) * 5)) :=
  C2_aggregation_formula eqRatio [] demoForm (by simp [demoForm])

/- ===================================================================
   Claim C9: the empty contract
   =================================================================== -/

theorem emptyContract_sections :
    extract_sections [] = [(strL "ПРЕАМБУЛА", [])] := rfl

/-- Over the sections extracted from the empty text (one empty
`ПРЕАМБУЛА`), every pass of the section loop leaves the score unchanged
and reports its section missing. -/
theorem C9_step (R : SeqRatio) (acc : CompAcc) (e : Str × SectionTemplate) :
    (sectionStep R (extract_sections []) acc e).total_score = acc.total_score ∧
    (sectionStep R (extract_sections []) acc e).missing_sections =
      acc.missing_sections ++ [e.1] := by
  obtain ⟨sa, _, _, hprov, _, _, hs, _, hm0, _⟩ :=
    sectionStep_eq R (extract_sections []) acc e
  have hkey : sa.comparison.found = false ∧ specContribution sa = 0 := by
    rcases hprov with hp | ⟨nm, body, hmem, hp⟩
    · refine ⟨by rw [hp]; rfl, ?_⟩
      simp [specContribution, hp, emptyComparison]
    · have hbody : body = [] := by
        rw [emptyContract_sections] at hmem
        simp only [List.mem_singleton, Prod.mk.injEq] at hmem
        exact hmem.2
      have hst : sa.comparison.status = "missing" := by
        rw [hp, matchedCmp_status, hbody, compare_section_empty]; rfl
      refine ⟨by rw [hp, matchedCmp_found, hbody, compare_section_empty]; rfl, ?_⟩
      simp [specContribution, hst]
  refine ⟨?_, hm0 hkey.1⟩
  rw [hs, hkey.2, add_zero]

/-- Folding the section loop over the empty contract: the score stays
put and every template section's name lands in `missing_sections`. -/
theorem C9_fold (R : SeqRatio) :
    ∀ (l : List (Str × SectionTemplate)) (acc : CompAcc),
      (l.foldl (sectionStep R (extract_sections [])) acc).total_score =
        acc.total_score ∧
      ∃ t, (l.foldl (sectionStep R (extract_sections [])) acc).missing_sections =
              acc.missing_sections ++ t ∧ ∀ e ∈ l, e.1 ∈ t := by
  intro l
  induction l with
  | nil =>
    intro acc
    exact ⟨rfl, [], by simp, by simp⟩
  | cons e rest ih =>
    intro acc
    obtain ⟨hs1, hm1⟩ := C9_step R acc e
    obtain ⟨hs2, t, hm2, hmem⟩ := ih (sectionStep R (extract_sections []) acc e)
    refine ⟨?_, e.1 :: t, ?_, ?_⟩
    · simp only [List.foldl_cons]
      rw [hs2, hs1]
    · simp only [List.foldl_cons]
      rw [hm2, hm1]
      simp
    · intro x hx
      rcases List.mem_cons.1 hx with hx | hx
      · rw [hx]; exact List.mem_cons_self _ _
      · exact List.mem_cons_of_mem _ (hmem x hx)

/-- C9: on the empty contract text, `extract_sections` yields exactly
the one synthetic empty `ПРЕАМБУЛА` section; `full_comparison` then
reports every required template section missing and scores 0. -/
theorem C9_empty_contract :
    extract_sections [] = [(strL "ПРЕАМБУЛА", [])] ∧
    ∀ (R : SeqRatio) (form : TypicalForm),
      (∀ e ∈ form.sections, e.2.required = true →
        e.1 ∈ (full_comparison R [] form).missing_sections) ∧
      (full_comparison R [] form).compliance_score = 0 := by
  refine ⟨rfl, fun R form => ⟨?_, ?_⟩⟩
  · intro e he _
    obtain ⟨_, t, hm, hmem⟩ := C9_fold R form.sections initAcc
    rw [full_comparison_missing, hm]
    simp only [show initAcc.missing_sections = ([] : List Str) from rfl,
      List.nil_append]
    exact hmem e he
  · obtain ⟨hs, _⟩ := C9_fold R form.sections initAcc
    rw [full_comparison_score, hs]
    simp only [show initAcc.total_score = 0 from rfl]
    split_ifs with hpos
    · rw [zero_div, zero_mul, zero_sub]
      refine max_eq_left (neg_nonpos.2 ?_)
      positivity
    · rfl

/- ===================================================================
   Claim C5: identical section bodies
   =================================================================== -/

/-- The risks field of one loop pass, in terms of the guarded scan. -/
theorem sectionStep_risks (R : SeqRatio) (cs : List (Str × Str)) (acc : CompAcc)
    (e : Str × SectionTemplate) :
    (sectionStep R cs acc e).risks =
      acc.risks ++ sectionRisks cs e.2.risk_patterns
        (find_best_matching_section R e.1 cs e.2.template e.2.keywords).1 := by
  rcases hfb : find_best_matching_section R e.1 cs e.2.template e.2.keywords
    with ⟨mn, mc⟩
  simp only [sectionStep, hfb]
  cases mc with
  | none => by_cases hr : e.2.required <;> simp [hr]
  | some cmp =>
    by_cases hf : cmp.found = true <;>
      by_cases h1 : cmp.status = "match" <;>
      by_cases h2 : cmp.status = "partial" <;>
      by_cases hr : e.2.required <;>
      simp [hf, h1, h2, hr]

/-- With no configured risk rules the guarded scan finds nothing. -/
theorem sectionRisks_nil (cs : List (Str × Str)) (x : Option Str) :
    sectionRisks cs [] x = [] := by
  cases x with
  | none => rfl
  | some nm =>
    unfold sectionRisks
    dsimp only
    split_ifs with h
    · cases h' : lookupDict nm cs with
      | none => rfl
      | some body =>
        dsimp only
        split_ifs <;> rfl
    · rfl

/-- One loop pass on a template section whose matcher returned a match
with the section's own canonical text: both score and weight grow by the
section's weight. -/
theorem C5_step (R : SeqRatio) (cs : List (Str × Str)) (acc : CompAcc)
    (e : Str × SectionTemplate) (nm : Str)
    (hfb : find_best_matching_section R e.1 cs e.2.template e.2.keywords =
      (some nm, some (matchedCmp R (pyLower (stripLeadingNum e.1))
        e.2.template e.2.keywords nm e.2.template)))
    (h2 : 2 ≤ (tokenize e.2.template).length) :
    (sectionStep R cs acc e).total_score =
      acc.total_score + (if e.2.required then (2 : ℝ) else 1) ∧
    (sectionStep R cs acc e).total_weight =
      acc.total_weight + (if e.2.required then (2 : ℝ) else 1) := by
  have hm := compare_section_self_match R e.2.template e.2.keywords h2
  have hst : (matchedCmp R (pyLower (stripLeadingNum e.1)) e.2.template
      e.2.keywords nm e.2.template).status = "match" := by
    rw [matchedCmp_status]
    exact hm.1
  have hfd : (matchedCmp R (pyLower (stripLeadingNum e.1)) e.2.template
      e.2.keywords nm e.2.template).found = true := by
    rw [matchedCmp_found]
    exact hm.2
  constructor <;>
    (simp only [sectionStep, hfb]
     by_cases hr : e.2.required <;> simp [hfd, hst, hr] <;> norm_num)

theorem weightSum_pos (l : List (Str × SectionTemplate)) (h : l ≠ []) :
    0 < weightSum l := by
  cases l with
  | nil => exact absurd rfl h
  | cons a t =>
    have h1 : (1 : ℝ) ≤ (if a.2.required then (2 : ℝ) else 1) := by
      split_ifs <;> norm_num
    have ht : 0 ≤ (t.map (fun e => if e.2.required then (2 : ℝ) else 1)).sum := by
      refine List.sum_nonneg ?_
      intro x hx
      obtain ⟨e, _, rfl⟩ := List.mem_map.1 hx
      split_ifs <;> norm_num
    simp only [weightSum, List.map_cons, List.sum_cons]
    linarith

/-- Folding the loop over sections that all self-match: score equals
weight. -/
theorem C5_fold (R : SeqRatio) (cs : List (Str × Str)) :
    ∀ (l : List (Str × SectionTemplate)) (acc : CompAcc),
      (∀ e ∈ l, ∃ nm,
        find_best_matching_section R e.1 cs e.2.template e.2.keywords =
          (some nm, some (matchedCmp R (pyLower (stripLeadingNum e.1))
            e.2.template e.2.keywords nm e.2.template))) →
      (∀ e ∈ l, 2 ≤ (tokenize e.2.template).length) →
      (l.foldl (sectionStep R cs) acc).total_score =
        acc.total_score + weightSum l ∧
      (l.foldl (sectionStep R cs) acc).total_weight =
        acc.total_weight + weightSum l := by
  intro l
  induction l with
  | nil =>
    intro acc _ _
    simp [weightSum]
  | cons e rest ih =>
    intro acc hH1 hH2
    obtain ⟨nm, hfb⟩ := hH1 e (by simp)
    obtain ⟨hs1, hw1⟩ := C5_step R cs acc e nm hfb (hH2 e (by simp))
    obtain ⟨hs2, hw2⟩ := ih (sectionStep R cs acc e)
      (fun x hx => hH1 x (by simp [hx])) (fun x hx => hH2 x (by simp [hx]))
    constructor
    · simp only [List.foldl_cons] at hs2 ⊢
      rw [hs2, hs1]
      simp only [weightSum, List.map_cons, List.sum_cons]
      ring
    · simp only [List.foldl_cons] at hw2 ⊢
      rw [hw2, hw1]
      simp only [weightSum, List.map_cons, List.sum_cons]
      ring

/-- C5 (amended): if the matcher pairs every template section with a
contract section whose body equals the section's canonical text, each
canonical text yields at least two tokens, the form has at least one
section and no risk rule fires, then every section's status is Match and
`full_comparison` returns compliance score 100 ≥ 80. -/
theorem C5_identical_sections_high_score (R : SeqRatio) (text : Str)
    (form : TypicalForm)
    (hne : form.sections ≠ [])
    (H1 : ∀ e ∈ form.sections, ∃ nm,
      find_best_matching_section R e.1 (extract_sections text)
          e.2.template e.2.keywords =
        (some nm, some (matchedCmp R (pyLower (stripLeadingNum e.1))
          e.2.template e.2.keywords nm e.2.template)))
    (H2 : ∀ e ∈ form.sections, 2 ≤ (tokenize e.2.template).length)
    (H3 : (full_comparison R text form).risks = []) :
    (full_comparison R text form).compliance_score = 100 ∧
    (80 : ℝ) ≤ (full_comparison R text form).compliance_score := by
  obtain ⟨hts, htw⟩ := C5_fold R (extract_sections text) form.sections initAcc H1 H2
  have hW : 0 < weightSum form.sections := weightSum_pos _ hne
  have hrisks := H3
  rw [full_comparison_risks] at hrisks
  have hscore : (full_comparison R text form).compliance_score = 100 := by
    rw [full_comparison_score, hts, htw]
    simp only [show initAcc.total_score = 0 from rfl,
      show initAcc.total_weight = 0 from rfl, zero_add]
    rw [if_pos hW, hrisks]
    simp only [List.filter_nil, List.length_nil, Nat.cast_zero, zero_mul,
      add_zero, zero_add]
    rw [div_self hW.ne']
    norm_num
  exact ⟨hscore, by rw [hscore]; norm_num⟩

theorem demo_extract : extract_sections demoText = [(strL "ПРЕАМБУЛА", demoText)] := by
  decide

/-- Witness for the amended C5: on the demonstration form and contract
the hypotheses hold and the score is 100. -/
theorem C5_identical_sections_high_score_witness :
    (full_comparison eqRatio demoText demoForm).compliance_score = 100 ∧
    (80 : ℝ) ≤ (full_comparison eqRatio demoText demoForm).compliance_score := by
  have h2 : 2 ≤ (tokenize (strL "гарантийный срок")).length := by decide
  have hne : demoForm.sections ≠ [] := by
    simp [demoForm]
  have H1 : ∀ e ∈ demoForm.sections, ∃ nm,
      find_best_matching_section eqRatio e.1 (extract_sections demoText)
          e.2.template e.2.keywords =
        (some nm, some (matchedCmp eqRatio (pyLower (stripLeadingNum e.1))
          e.2.template e.2.keywords nm e.2.template)) := by
    intro e he
    simp only [demoForm, List.mem_singleton] at he
    subst he
    refine ⟨strL "ПРЕАМБУЛА", ?_⟩
    unfold find_best_matching_section
    rw [demo_extract, bestLoop_cons]
    have hpos : (0 : ℝ) <
        itemTotal eqRatio
          (pyLower (stripLeadingNum (strL "1. ГАРАНТИИ", demoSection).1))
          (strL "1. ГАРАНТИИ", demoSection).2.template
          (strL "1. ГАРАНТИИ", demoSection).2.keywords
          (strL "ПРЕАМБУЛА", demoText) := by
      unfold itemTotal
      have hc : (compare_section eqRatio demoText demoSection.template
          demoSection.keywords).combined_score =
          specCombined eqRatio demoText demoSection.template demoSection.keywords := by
        refine combined_eq_spec eqRatio demoText demoSection.template
          demoSection.keywords (by decide)
      have hself : (0.85 : ℝ) ≤
          specCombined eqRatio demoText demoText demoSection.keywords :=
        specCombined_self_ge eqRatio demoText demoSection.keywords h2
      have hlev := levenshtein_ratio_bounds eqRatio
        (pyLower (stripLeadingNum (strL "1. ГАРАНТИИ", demoSection).1))
        (pyLower (stripLeadingNum (strL "ПРЕАМБУЛА")))
      dsimp only
      rw [hc]
      have hTT : specCombined eqRatio demoText demoSection.template
          demoSection.keywords =
          specCombined eqRatio demoText demoText demoSection.keywords := rfl
      rw [hTT]
      nlinarith [hlev.1, hlev.2, hself]
    rw [if_pos hpos]
    rfl
  have H2 : ∀ e ∈ demoForm.sections, 2 ≤ (tokenize e.2.template).length := by
    intro e he
    simp only [demoForm, List.mem_singleton] at he
    subst he
    exact h2
  have H3 : (full_comparison eqRatio demoText demoForm).risks = [] := by
    rw [full_comparison_risks]
    have hstep := sectionStep_risks eqRatio (extract_sections demoText) initAcc
      (strL "1. ГАРАНТИИ", demoSection)
    have : (demoForm.sections.foldl
        (sectionStep eqRatio (extract_sections demoText)) initAcc).risks = [] := by
      show ([(strL "1. ГАРАНТИИ", demoSection)].foldl
        (sectionStep eqRatio (extract_sections demoText)) initAcc).risks = []
      simp only [List.foldl_cons, List.foldl_nil]
      rw [hstep]
      rw [show (strL "1. ГАРАНТИИ", demoSection).2.risk_patterns = ([] : List RiskRule) from rfl]
      rw [sectionRisks_nil]
      rfl
    rw [this]
    rfl
  exact C5_identical_sections_high_score eqRatio demoText demoForm hne H1 H2 H3

/-- C5 counterexample: the claim fails as stated.  The contract text
equals the canonical text of the only (required) template section
character for character and no risk rule fires, yet the compliance score
is 60 < 80: the single-token canonical text leaves the bigram metric at
0, the combined score at 0.65 < 0.7, and the section only Partial. -/
theorem C5_counterexample_single_token :
    extract_sections (strL "гарантия") = [(strL "ПРЕАМБУЛА", strL "гарантия")] ∧
    demoSection1.template = strL "гарантия" ∧
    (full_comparison eqRatio (strL "гарантия") demoForm1).risks = [] ∧
    (full_comparison eqRatio (strL "гарантия") demoForm1).compliance_score = 60 ∧
    ¬(80 : ℝ) ≤ (full_comparison eqRatio (strL "гарантия") demoForm1).compliance_score := by
  have hcs : extract_sections (strL "гарантия") =
      [(strL "ПРЕАМБУЛА", strL "гарантия")] := by decide
  have h1tok : tokenize (strL "гарантия") = [strL "гарантия"] := by decide
  have hne : (strL "гарантия") ≠ ([] : Str) := by decide
  have hset : (tokenize (strL "гарантия")).toFinset ≠ ∅ := by
    rw [h1tok]
    simp
  have hbig : get_ngrams (tokenize (strL "гарантия")) 2 = ∅ := by
    rw [h1tok]
    rfl
  have htake : (strL "гарантия").take 1000 ≠ [] := by decide
  have htoknil : tokenize (strL "гарантия") ≠ [] := by
    rw [h1tok]
    simp
  have hpairEq : (tfidfPair (tokenize (strL "гарантия")) (tokenize (strL "гарантия"))).2 =
      (tfidfPair (tokenize (strL "гарантия")) (tokenize (strL "гарантия"))).1 := rfl
  have hspec : specCombined eqRatio (strL "гарантия") (strL "гарантия") [] = 0.65 := by
    unfold specCombined
    rw [jaccard_self _ hset, overlap_self _ hset,
      levenshtein_ratio_self eqRatio _ htake, hpairEq,
      cosine_self _ hset (tfidf_self_norm_pos _ htoknil), hbig]
    have hkw : (keyword_match_score (strL "гарантия") []).1 = 0 := rfl
    rw [hkw]
    have hj0 : jaccard_similarity (∅ : Finset (List Str)) (∅ : Finset (List Str)) = 0 := by
      unfold jaccard_similarity
      rw [if_pos (Or.inl rfl)]
    rw [hj0]
    norm_num
  have hstat : (compare_section eqRatio (strL "гарантия") (strL "гарантия") []).status
      = "partial" := by
    rw [compare_section_status_eq eqRatio _ _ _ hne, hspec]
    rw [if_neg (by norm_num), if_pos (by norm_num)]
  have hfound : (compare_section eqRatio (strL "гарантия") (strL "гарантия") []).found
      = true := (compare_section_found_iff _ _ _ _).2 hne
  have hcomb : (compare_section eqRatio (strL "гарантия") (strL "гарантия") []).combined_score
      = 0.65 := by
    rw [combined_eq_spec eqRatio _ _ _ hne, hspec]
  have hfb : find_best_matching_section eqRatio (strL "1. ГАРАНТИИ")
      (extract_sections (strL "гарантия")) demoSection1.template demoSection1.keywords =
      (some (strL "ПРЕАМБУЛА"),
       some (matchedCmp eqRatio (pyLower (stripLeadingNum (strL "1. ГАРАНТИИ")))
         demoSection1.template demoSection1.keywords (strL "ПРЕАМБУЛА")
         (strL "гарантия"))) := by
    unfold find_best_matching_section
    rw [hcs, bestLoop_cons]
    have hpos : (0 : ℝ) < itemTotal eqRatio
        (pyLower (stripLeadingNum (strL "1. ГАРАНТИИ")))
        demoSection1.template demoSection1.keywords
        (strL "ПРЕАМБУЛА", strL "гарантия") := by
      unfold itemTotal
      have hlev := levenshtein_ratio_bounds eqRatio
        (pyLower (stripLeadingNum (strL "1. ГАРАНТИИ")))
        (pyLower (stripLeadingNum (strL "ПРЕАМБУЛА")))
      have hc2 : (compare_section eqRatio (strL "гарантия") demoSection1.template
          demoSection1.keywords).combined_score = 0.65 := hcomb
      dsimp only
      rw [hc2]
      nlinarith [hlev.1, hlev.2]
    rw [if_pos hpos]
    rfl
  have hmc_status : (matchedCmp eqRatio (pyLower (stripLeadingNum (strL "1. ГАРАНТИИ")))
      demoSection1.template demoSection1.keywords (strL "ПРЕАМБУЛА")
      (strL "гарантия")).status = "partial" := by
    rw [matchedCmp_status]
    exact hstat
  have hmc_found : (matchedCmp eqRatio (pyLower (stripLeadingNum (strL "1. ГАРАНТИИ")))
      demoSection1.template demoSection1.keywords (strL "ПРЕАМБУЛА")
      (strL "гарантия")).found = true := by
    rw [matchedCmp_found]
    exact hfound
  have hstep_score : (sectionStep eqRatio (extract_sections (strL "гарантия")) initAcc
      (strL "1. ГАРАНТИИ", demoSection1)).total_score = 0 + 2.0 * 0.6 ∧
      (sectionStep eqRatio (extract_sections (strL "гарантия")) initAcc
      (strL "1. ГАРАНТИИ", demoSection1)).total_weight = 0 + 2.0 := by
    constructor <;>
      (simp only [sectionStep, hfb]
       simp [hmc_found, hmc_status, show demoSection1.required = true from rfl, initAcc])
  have hrisks : (full_comparison eqRatio (strL "гарантия") demoForm1).risks = [] := by
    rw [full_comparison_risks]
    have hstep := sectionStep_risks eqRatio (extract_sections (strL "гарантия")) initAcc
      (strL "1. ГАРАНТИИ", demoSection1)
    have hacc : (demoForm1.sections.foldl
        (sectionStep eqRatio (extract_sections (strL "гарантия"))) initAcc).risks = [] := by
      show ([(strL "1. ГАРАНТИИ", demoSection1)].foldl
        (sectionStep eqRatio (extract_sections (strL "гарантия"))) initAcc).risks = []
      simp only [List.foldl_cons, List.foldl_nil]
      rw [hstep]
      rw [show (strL "1. ГАРАНТИИ", demoSection1).2.risk_patterns =
        ([] : List RiskRule) from rfl]
      rw [sectionRisks_nil]
      rfl
    rw [hacc]
    rfl
  have hscore : (full_comparison eqRatio (strL "гарантия") demoForm1).compliance_score
      = 60 := by
    have hfold : (demoForm1.sections.foldl
        (sectionStep eqRatio (extract_sections (strL "гарантия"))) initAcc) =
        sectionStep eqRatio (extract_sections (strL "гарантия")) initAcc
          (strL "1. ГАРАНТИИ", demoSection1) := by
      show ([(strL "1. ГАРАНТИИ", demoSection1)].foldl
        (sectionStep eqRatio (extract_sections (strL "гарантия"))) initAcc) = _
      simp only [List.foldl_cons, List.foldl_nil]
    rw [full_comparison_score, hfold, hstep_score.1, hstep_score.2]
    have hriskacc : (sectionStep eqRatio (extract_sections (strL "гарантия")) initAcc
        (strL "1. ГАРАНТИИ", demoSection1)).risks ++
        check_risk_patterns (strL "гарантия") demoForm1.global_risk_patterns = [] := by
      have := hrisks
      rw [full_comparison_risks, hfold] at this
      exact this
    rw [hriskacc]
    rw [if_pos (by norm_num : (0:ℝ) < 0 + 2.0)]
    simp only [List.filter_nil, List.length_nil, Nat.cast_zero, zero_mul, add_zero]
    rw [show ((0:ℝ) + 2.0 * 0.6) / (0 + 2.0) * 100 - 0 = 60 by norm_num]
    rw [max_eq_right (by norm_num : (0:ℝ) ≤ 60)]
  exact ⟨hcs, rfl, hrisks, hscore, by rw [hscore]; norm_num⟩

/- ===================================================================
   Claims C6 and C7: the risk-pattern scanner
   =================================================================== -/

/-- C7: `check_risk_patterns` emits at most one finding per rule, so the
number of findings never exceeds the number of rules; concretely, a text
holding a configured marker exactly three times still yields exactly the
one finding at the marker's first occurrence. -/
theorem C7_first_match_only :
    (∀ (text : Str) (rules : List RiskRule),
      (check_risk_patterns text rules).length ≤ rules.length) ∧
    countOccur (strL "риск") (strL "риск и риск и риск") = 3 ∧
    check_risk_patterns (strL "риск и риск и риск")
        [⟨litSearch (strL "риск"), some "red", "маркер риска"⟩] =
      [{ issue := "маркер риска", risk_level := "red",
         context := strL "..." ++ strL "риск и риск и риск" ++ strL "...",
         position := 0 }] := by
  refine ⟨fun text rules => ?_, by decide, by decide⟩
  simpa [check_risk_patterns] using
    List.length_filterMap_le
      (fun p => (RiskRule.search p (pyLower text)).map (mkFinding (pyLower text) p))
      rules

/-- C6 counterexample: the claim that malformed rules (here: a rule whose
severity is the invalid string "purple") are rejected as a
`TemplateError` before any scan runs is false.  The code has no
template-load validation and no `TemplateError` at all: the scanner
processes the malformed rule like any other and emits a finding carrying
the invalid severity verbatim. -/
theorem C6_counterexample_invalid_severity_scanned :
    check_risk_patterns (strL "предоплата сто процентов")
        [⟨litSearch (strL "предоплата"), some "purple", "невалидная severity"⟩] =
      [{ issue := "невалидная severity", risk_level := "purple",
         context := strL "..." ++ strL "предоплата сто процентов" ++ strL "...",
         position := 0 }] := by
  decide

/-- C6 (amended): no template-load validation exists; during a scan,
`check_risk_patterns` processes every rule of the list — a rule fires
exactly when its pattern matches, and its finding carries the rule's
severity string verbatim (defaulting to "yellow" only when the key is
absent). -/
theorem C6_no_load_time_validation (text : Str) (rules : List RiskRule) :
    (check_risk_patterns text rules).length =
      (rules.filter (fun p => (p.search (pyLower text)).isSome)).length ∧
    (∀ p ∈ rules, ∀ m, p.search (pyLower text) = some m →
      mkFinding (pyLower text) p m ∈ check_risk_patterns text rules) := by
  constructor
  · induction rules with
    | nil => simp [check_risk_patterns]
    | cons p rest ih =>
      simp only [check_risk_patterns, List.filterMap_cons, List.filter_cons]
      cases h : p.search (pyLower text) with
      | none => simpa [h, check_risk_patterns] using ih
      | some m => simpa [h, check_risk_patterns] using ih
  · intro p hp m hm
    simp only [check_risk_patterns, List.mem_filterMap]
    exact ⟨p, hp, by rw [hm]; rfl⟩

end LegalTL
